import Mathlib

/-!
# Configuration subsystem of semaphore (`util/config.go`)

A shallow embedding of `util/config.go`:

* the configuration document `configType` and its two sub-records;
* `init`, the start-up routine: flag dispatch, loading of the document from a
  file or from the embedded asset, the `PORT` override, the field defaults,
  the decoding of the cookie keys and the parsing of the web host;
* `GenerateCookieSecrets`;
* `Scan`, the interactive set-up wizard.

Go strings are Lean strings; `len` is the number of bytes of the UTF-8 form.
Byte slices are lists of natural numbers below 256.  Package variables and the
terminal are passed explicitly; a run of `init` is a record of what it did to
the outside, how it ended and what the package variables held at that moment.

The parts of the Go standard library whose result decides a property are
embedded as well, from the sources of the library: `encoding/base64`
(`StdEncoding`, with the two fast paths of `Decode` on a 64-bit platform),
`fmt.Scanln` on one string operand reading the unbuffered standard input, and
`path.Clean`.  The parts whose result is only passed along (`encoding/json`,
`net/url`, `bcrypt`, the file system, the embedded assets, the random source)
are fields of the environment record `Env`.

The development has two parts: the definitions, then the theorems.
-/

namespace Semaphore

/-! ## Go strings -/

/-- Go's builtin `len` on a string: its number of bytes. -/
def len (s : String) : Nat := s.utf8ByteSize

/-- The bytes of a Go string (`[]byte(s)`). -/
def bytesOf (s : String) : List Nat :=
  s.toList.flatMap (fun c => (String.utf8EncodeChar c).map UInt8.toNat)

/-- The Go conversion `string(buf)` for a buffer of ASCII bytes. -/
def stringOf (buf : List Nat) : String := String.mk (buf.map Char.ofNat)

/-! ## `encoding/base64`, `StdEncoding` -/

namespace base64

/-- The standard alphabet (`encodeStd`). -/
def encodeStd : String :=
  "ABCDEFGHIJKLMNOPQRSTUVWXYZabcdefghijklmnopqrstuvwxyz0123456789+/"

/-- The constant `StdPadding`, the byte `=`. -/
def padChar : Nat := 61

/-- The table `enc.encode`: the byte standing for the six-bit value `i`. -/
def encode (i : Nat) : Nat := (encodeStd.toList.getD i 'A').toNat

/-- The table `enc.decodeMap`: `0xFF` everywhere, except that the byte
`encode i` is sent to `i`. -/
def decodeMap (c : Nat) : Nat :=
  let i := (encodeStd.toList.map Char.toNat).indexOf c
  if i < 64 then i else 0xFF

/-- The method `Encoding.Encode`: full groups of three bytes become four symbols; a
remainder of one or two bytes becomes two or three symbols and padding. -/
def Encode : List Nat → List Nat
  | a :: b :: c :: rest =>
      let val := a <<< 16 ||| b <<< 8 ||| c
      encode ((val >>> 18) &&& 0x3F) :: encode ((val >>> 12) &&& 0x3F) ::
        encode ((val >>> 6) &&& 0x3F) :: encode (val &&& 0x3F) :: Encode rest
  | [a, b] =>
      let val := a <<< 16 ||| b <<< 8
      [encode ((val >>> 18) &&& 0x3F), encode ((val >>> 12) &&& 0x3F),
        encode ((val >>> 6) &&& 0x3F), padChar]
  | [a] =>
      let val := a <<< 16
      [encode ((val >>> 18) &&& 0x3F), encode ((val >>> 12) &&& 0x3F), padChar, padChar]
  | [] => []

/-- The method `Encoding.EncodeToString`. -/
def EncodeToString (src : List Nat) : String := stringOf (Encode src)

/-- The outcome of `decodeQuantum`: the unread input `src[nsi:]`, the new
index `nsi`, the bytes written to `dst` and the error offset, if any. -/
structure Quantum where
  rest : List Nat
  nsi : Nat
  out : List Nat
  err : Option Nat
deriving DecidableEq, Repr

/-- The loops of `decodeQuantum` that step over `\n` and `\r`. -/
def skipNewlines : List Nat → Nat → List Nat × Nat
  | [], si => ([], si)
  | c :: rest, si => if c = 10 ∨ c = 13 then skipNewlines rest (si + 1) else (c :: rest, si)

/-- The end of `decodeQuantum`: four six-bit values become three bytes, of
which `dlen - 1` are written. -/
def quantumBytes (dbuf : List Nat) (dlen : Nat) : List Nat :=
  let val := dbuf.getD 0 0 <<< 18 ||| dbuf.getD 1 0 <<< 12 ||| dbuf.getD 2 0 <<< 6 ||| dbuf.getD 3 0
  [(val >>> 16) % 256, (val >>> 8) % 256, (val >>> 0) % 256].take (dlen - 1)

/-- The method `Encoding.decodeQuantum` for `StdEncoding` (padded, not strict).  `total`
is `len(src)`, the list is `src[si:]`, `j` the loop counter and `dbuf` the
six-bit values read so far. -/
def decodeQuantumLoop (total : Nat) : List Nat → Nat → Nat → List Nat → Quantum
  | [], si, j, _ =>
      if j = 0 then ⟨[], si, [], none⟩ else ⟨[], si, [], some (si - j)⟩
  | c :: rest, si, j, dbuf =>
      let si := si + 1
      let out := decodeMap c
      if out ≠ 0xFF then
        if j + 1 < 4 then decodeQuantumLoop total rest si (j + 1) (dbuf ++ [out])
        else ⟨rest, si, quantumBytes (dbuf ++ [out]) 4, none⟩
      else if c = 10 ∨ c = 13 then decodeQuantumLoop total rest si j dbuf
      else if c ≠ padChar then ⟨rest, si, [], some (si - 1)⟩
      else
        match j with
        | 0 => ⟨rest, si, [], some (si - 1)⟩
        | 1 => ⟨rest, si, [], some (si - 1)⟩
        | 2 =>
            match skipNewlines rest si with
            | ([], si) => ⟨[], si, [], some total⟩
            | (c2 :: rest2, si) =>
                if c2 ≠ padChar then ⟨c2 :: rest2, si, [], some (si - 1)⟩
                else
                  match skipNewlines rest2 (si + 1) with
                  | (rest3, si) =>
                      ⟨rest3, si, quantumBytes dbuf 2, if rest3 ≠ [] then some si else none⟩
        | _ =>
            match skipNewlines rest si with
            | (rest3, si) =>
                ⟨rest3, si, quantumBytes dbuf j, if rest3 ≠ [] then some si else none⟩

/-- The method `Encoding.decodeQuantum` at `src[si:]`. -/
def decodeQuantum (total : Nat) (src : List Nat) (si : Nat) : Quantum :=
  decodeQuantumLoop total src si 0 []

/-- The function `assemble32`: four table values as one 32-bit word, unless one of them is
`0xFF`. -/
def assemble32 (n1 n2 n3 n4 : Nat) : Option Nat :=
  if n1 ||| n2 ||| n3 ||| n4 = 0xFF then none
  else some (n1 <<< 26 ||| n2 <<< 20 ||| n3 <<< 14 ||| n4 <<< 8)

/-- The function `assemble64`: eight table values as one 64-bit word, unless one of them is
`0xFF`. -/
def assemble64 (n1 n2 n3 n4 n5 n6 n7 n8 : Nat) : Option Nat :=
  if n1 ||| n2 ||| n3 ||| n4 ||| n5 ||| n6 ||| n7 ||| n8 = 0xFF then none
  else some (n1 <<< 58 ||| n2 <<< 52 ||| n3 <<< 46 ||| n4 <<< 40 |||
    n5 <<< 34 ||| n6 <<< 28 ||| n7 <<< 22 ||| n8 <<< 16)

/-- The bytes of `binary.BigEndian.PutUint32` that `Decode` keeps (`n += 3`). -/
def bytes32 (dn : Nat) : List Nat :=
  [(dn >>> 24) % 256, (dn >>> 16) % 256, (dn >>> 8) % 256]

/-- The bytes of `binary.BigEndian.PutUint64` that `Decode` keeps (`n += 6`). -/
def bytes64 (dn : Nat) : List Nat :=
  [(dn >>> 56) % 256, (dn >>> 48) % 256, (dn >>> 40) % 256,
    (dn >>> 32) % 256, (dn >>> 24) % 256, (dn >>> 16) % 256]

/-- The third loop of `Encoding.Decode`: one quantum at a time until the input
is used up.  `out` is `dst[:n]`; the result is `dst[:n]` and the error. -/
def decodeTail : Nat → Nat → List Nat → Nat → List Nat → List Nat × Option Nat
  | 0, _, _, _, out => (out, none)
  | fuel + 1, total, src, si, out =>
      if src ≠ [] then
        let q := decodeQuantum total src si
        match q.err with
        | some e => (out ++ q.out, some e)
        | none => decodeTail fuel total q.rest q.nsi (out ++ q.out)
      else (out, none)

/-- The second loop of `Encoding.Decode`: four symbols at a time while four
symbols and four bytes of `dst` (of length `dlen`) are left. -/
def decode32 : Nat → Nat → Nat → List Nat → Nat → List Nat → List Nat × Option Nat
  | 0, _, _, _, _, out => (out, none)
  | fuel + 1, total, dlen, src, si, out =>
      match src with
      | c1 :: c2 :: c3 :: c4 :: rest =>
          if 4 ≤ dlen - out.length then
            match assemble32 (decodeMap c1) (decodeMap c2) (decodeMap c3) (decodeMap c4) with
            | some dn => decode32 fuel total dlen rest (si + 4) (out ++ bytes32 dn)
            | none =>
                let q := decodeQuantum total src si
                match q.err with
                | some e => (out ++ q.out, some e)
                | none => decode32 fuel total dlen q.rest q.nsi (out ++ q.out)
          else decodeTail (fuel + 1) total src si out
      | _ => decodeTail (fuel + 1) total src si out

/-- The first loop of `Encoding.Decode` (64-bit platforms): eight symbols at a
time while eight symbols and eight bytes of `dst` are left. -/
def decode64 : Nat → Nat → Nat → List Nat → Nat → List Nat → List Nat × Option Nat
  | 0, _, _, _, _, out => (out, none)
  | fuel + 1, total, dlen, src, si, out =>
      match src with
      | c1 :: c2 :: c3 :: c4 :: c5 :: c6 :: c7 :: c8 :: rest =>
          if 8 ≤ dlen - out.length then
            match assemble64 (decodeMap c1) (decodeMap c2) (decodeMap c3) (decodeMap c4)
                (decodeMap c5) (decodeMap c6) (decodeMap c7) (decodeMap c8) with
            | some dn => decode64 fuel total dlen rest (si + 8) (out ++ bytes64 dn)
            | none =>
                let q := decodeQuantum total src si
                match q.err with
                | some e => (out ++ q.out, some e)
                | none => decode64 fuel total dlen q.rest q.nsi (out ++ q.out)
          else decode32 (fuel + 1) total dlen src si out
      | _ => decode32 (fuel + 1) total dlen src si out

/-- The method `Encoding.Decode` into a buffer of `dlen` bytes: the bytes written,
`dst[:n]`, and the error.  Every turn of a loop reads at least one byte, so
`len(src) + 1` turns are never used up. -/
def Decode (dlen : Nat) (src : List Nat) : List Nat × Option Nat :=
  if src.length = 0 then ([], none)
  else decode64 (src.length + 1) src.length dlen src 0 []

/-- The method `Encoding.DecodedLen` for a padded encoding. -/
def DecodedLen (n : Nat) : Nat := n / 4 * 3

/-- The method `Encoding.DecodeString`: `dbuf[:n]` and the error of `Decode`. -/
def DecodeString (s : String) : List Nat × Option Nat :=
  Decode (DecodedLen (len s)) (bytesOf s)

end base64

/-! ## The configuration document -/

/-- The record `mySQLConfig`. -/
structure mySQLConfig where
  Hostname : String
  Username : String
  Password : String
  DbName : String
deriving DecidableEq, Repr

/-- The record `ldapMappings`. -/
structure ldapMappings where
  DN : String
  Mail : String
  Uid : String
  CN : String
deriving DecidableEq, Repr

/-- The record `configType`. -/
structure configType where
  MySQL : mySQLConfig
  Port : String
  TmpPath : String
  CookieHash : String
  CookieEncryption : String
  EmailAlert : Bool
  EmailSender : String
  EmailHost : String
  EmailPort : String
  WebHost : String
  LdapEnable : Bool
  LdapBindDN : String
  LdapBindPassword : String
  LdapServer : String
  LdapNeedTLS : Bool
  LdapSearchDN : String
  LdapSearchFilter : String
  LdapMappings : ldapMappings
  TelegramAlert : Bool
  TelegramChat : String
  TelegramToken : String
  ConcurrencyMode : String
  MaxParallelTasks : Int
deriving DecidableEq, Repr

/-- The function `NewConfig`: the zero value `&configType{}`. -/
def NewConfig : configType :=
  { MySQL := ⟨"", "", "", ""⟩, Port := "", TmpPath := "", CookieHash := "",
    CookieEncryption := "", EmailAlert := false, EmailSender := "", EmailHost := "",
    EmailPort := "", WebHost := "", LdapEnable := false, LdapBindDN := "",
    LdapBindPassword := "", LdapServer := "", LdapNeedTLS := false, LdapSearchDN := "",
    LdapSearchFilter := "", LdapMappings := ⟨"", "", "", ""⟩, TelegramAlert := false,
    TelegramChat := "", TelegramToken := "", ConcurrencyMode := "", MaxParallelTasks := 0 }

/-- The method `configType.GenerateCookieSecrets`; `hash` and `encryption` are the two
values `securecookie.GenerateRandomKey(32)` returned, in that order. -/
def GenerateCookieSecrets (conf : configType) (hash encryption : List Nat) : configType :=
  { conf with
    CookieHash := base64.EncodeToString hash
    CookieEncryption := base64.EncodeToString encryption }

/-! ## Start-up: `init` -/

/-- The command-line flags after `flag.Parse()`. -/
structure Flags where
  setup : Bool
  migrate : Bool
  upgrade : Bool
  config : String
  hash : String
  printConfig : Bool
deriving DecidableEq, Repr

/-- What `init` takes from outside the package.  `URL` is the type of the
values `url.Parse` returns. -/
structure Env (URL : Type) where
  /-- The variable `PORT` of the process environment, `none` when unset. -/
  PORT : Option String
  /-- The result of `os.Open`: the contents of the file, `none` on an error. -/
  Open : String → Option (List Nat)
  /-- The function `Asset` of the embedded assets, `none` on an error. -/
  Asset : String → Option (List Nat)
  /-- The result of `json.NewDecoder(file).Decode(&Config)` with `Config == nil`:
  `none` is an error, `some none` a success that leaves `Config` nil,
  `some (some d)` a success that makes `Config` point to `d`. -/
  jsonDecoderDecode : List Nat → Option (Option configType)
  /-- The result of `json.Unmarshal(configFile, &Config)`, in the same way. -/
  jsonUnmarshal : List Nat → Option (Option configType)
  /-- The function `url.Parse`: `none` is the nil URL returned with an error. -/
  urlParse : String → Option URL
  /-- The method `(*URL).String` on a URL that is not nil. -/
  urlString : URL → String
  /-- The result of `bcrypt.GenerateFromPassword`, as a string. -/
  bcrypt : String → Nat → String
  /-- The two values of `securecookie.GenerateRandomKey(32)`. -/
  randomKeys : List Nat × List Nat

/-- The function `os.Getenv`: the empty string for a variable that is not set. -/
def Getenv (v : Option String) : String := v.getD ""

/-- The value `securecookie.New(hashKey, blockKey)` keeps: the two keys, the
second one `none` for a nil slice. -/
structure SecureCookie where
  hashKey : List Nat
  blockKey : Option (List Nat)
deriving DecidableEq, Repr

/-- The package variables `Config`, `Cookie` and `WebHostURL`; `none` is nil. -/
structure Globals (URL : Type) where
  Config : Option configType
  Cookie : Option SecureCookie
  WebHostURL : Option URL

/-- What `init` does to the outside, in order. -/
inductive Event where
  /-- The call `os.Open(path)`. -/
  | openFile (path : String)
  /-- The call `Asset(name)`. -/
  | asset (name : String)
  /-- The call `fmt.Println(text)`. -/
  | println (text : String)
  /-- The call `fmt.Println` of `json.MarshalIndent(cfg, "", "\t")`. -/
  | printDoc (cfg : configType)
deriving DecidableEq, Repr

/-- The reasons for which `init` panics. -/
inductive Panic where
  /-- The call `panic(err)` after `os.Open` failed. -/
  | openError
  /-- The call `panic(err)` after decoding failed. -/
  | decodeError
  /-- A nil pointer dereference. -/
  | nilDereference
deriving DecidableEq, Repr

/-- How `init` ends. -/
inductive Outcome where
  /-- The function returns. -/
  | returned
  /-- The call `os.Exit(code)`. -/
  | exit (code : Nat)
  /-- A panic. -/
  | panic (p : Panic)
deriving DecidableEq, Repr

/-- A run of `init`: its events, how it ended and the package variables at
that moment.  A run that ends before line 147 has not touched `Cookie` and
`WebHostURL`, and `Config` is reported as nil for it. -/
structure Run (URL : Type) where
  events : List Event
  outcome : Outcome
  globals : Globals URL

/-- Lines 147 to 160 of `init`: the `PORT` override and the three defaults. -/
def resolveFields (PORT : Option String) (Config : configType) : configType :=
  let Config :=
    if len (Getenv PORT) > 0 then { Config with Port := ":" ++ Getenv PORT } else Config
  let Config := if len Config.Port = 0 then { Config with Port := ":3000" } else Config
  let Config :=
    if len Config.TmpPath = 0 then { Config with TmpPath := "/tmp/semaphore" } else Config
  let Config :=
    if Config.MaxParallelTasks < 1 then { Config with MaxParallelTasks := 10 } else Config
  Config

/-- Lines 162 to 170 of `init`: the two keys handed to `securecookie.New`.
The errors of `DecodeString` are dropped and `encryption` stays nil for an
empty `CookieEncryption`. -/
def cookieKeys (Config : configType) : SecureCookie :=
  let encryption : Option (List Nat) := none
  let hash := (base64.DecodeString Config.CookieHash).1
  let encryption :=
    if len Config.CookieEncryption > 0 then
      some (base64.DecodeString Config.CookieEncryption).1
    else encryption
  ⟨hash, encryption⟩

/-- Lines 147 to 174 of `init`, from the value of `Config` after loading. -/
def resolve {URL : Type} (env : Env URL) (events : List Event) :
    Option configType → Run URL
  | none => ⟨events, .panic .nilDereference, ⟨none, none, none⟩⟩
  | some Config =>
      let Config := resolveFields env.PORT Config
      let Cookie := cookieKeys Config
      match env.urlParse Config.WebHost with
      | none => ⟨events, .panic .nilDereference, ⟨some Config, some Cookie, none⟩⟩
      | some u =>
          let WebHostURL := if len (env.urlString u) = 0 then none else some u
          ⟨events, .returned, ⟨some Config, some Cookie, WebHostURL⟩⟩

/-- Lines 123 to 145 of `init`: the events of loading and either the way
`init` ends there or the value of `Config` after decoding. -/
def load {URL : Type} (env : Env URL) (flags : Flags) :
    List Event × (Outcome ⊕ Option configType) :=
  if len flags.config > 0 then
    match env.Open flags.config with
    | none => ([.openFile flags.config], .inl (.panic .openError))
    | some file =>
        match env.jsonDecoderDecode file with
        | none =>
            ([.openFile flags.config, .println "Could not decode configuration!"],
              .inl (.panic .decodeError))
        | some Config => ([.openFile flags.config], .inr Config)
  else
    match env.Asset "config.json" with
    | none =>
        ([.asset "config.json",
            .println ("Cannot Find configuration! Use -c parameter to point to a JSON file " ++
              "generated by -setup.\n\n Hint: have you run `-setup` ?")],
          .inl (.exit 1))
    | some configFile =>
        match env.jsonUnmarshal configFile with
        | none =>
            ([.asset "config.json", .println "Could not decode configuration!"],
              .inl (.panic .decodeError))
        | some Config => ([.asset "config.json"], .inr Config)

/-- The function `init` after `flag.Parse()`. -/
def init {URL : Type} (env : Env URL) (flags : Flags) : Run URL :=
  if flags.printConfig then
    let cfg : configType :=
      { NewConfig with
        MySQL := { Hostname := "127.0.0.1:3306", Username := "root", Password := "",
                   DbName := "semaphore" }
        Port := ":3000"
        TmpPath := "/tmp/semaphore" }
    let cfg := GenerateCookieSecrets cfg env.randomKeys.1 env.randomKeys.2
    ⟨[.printDoc cfg], .exit 0, ⟨none, none, none⟩⟩
  else if len flags.hash > 0 then
    let password := env.bcrypt flags.hash 11
    ⟨[.println ("Generated password:  " ++ password)], .exit 0, ⟨none, none, none⟩⟩
  else
    match load env flags with
    | (events, .inl outcome) => ⟨events, outcome, ⟨none, none, none⟩⟩
    | (events, .inr Config) => resolve env events Config

/-- A document loads when decoding succeeds and leaves `Config` pointing to it. -/
abbrev Loads {URL : Type} (env : Env URL) (flags : Flags) (d : configType) : Prop :=
  flags.printConfig = false ∧ flags.hash = "" ∧ (load env flags).2 = .inr (some d)

/-- Decoding succeeds and leaves `Config` nil, as for the JSON literal `null`. -/
abbrev LoadsNil {URL : Type} (env : Env URL) (flags : Flags) : Prop :=
  flags.printConfig = false ∧ flags.hash = "" ∧ (load env flags).2 = .inr none

/-- The string begins with the character `c`. -/
abbrev beginsWith (s : String) (c : Char) : Prop := s.data.head? = some c

/-! ## Concrete environments -/

/-- An environment in which `-config conf.json` names a file that decodes to
`d`, there is no embedded asset, and URLs are kept as the strings they were
parsed from, every string but those starting with `:` being accepted. -/
def fileEnv (PORT : Option String) (d : Option configType) : Env String where
  PORT := PORT
  Open := fun p => if p = "conf.json" then some [] else none
  Asset := fun _ => none
  jsonDecoderDecode := fun _ => some d
  jsonUnmarshal := fun _ => none
  urlParse := fun s => if s.data.head? = some ':' then none else some s
  urlString := fun u => u
  bcrypt := fun _ _ => ""
  randomKeys := (List.range 32, List.replicate 32 255)

/-- The flags of `semaphore -config conf.json`. -/
def fileFlags : Flags :=
  { setup := false, migrate := false, upgrade := false, config := "conf.json", hash := "",
    printConfig := false }

/-! ## `path.Clean` -/

/-- The inner loop of the `..` case of `path.Clean`, after the first `out.w--`:
the buffer, last byte first, and the byte at index `out.w`. -/
def backtrack (dotdot : Nat) : List Char → Char → List Char
  | [], _ => []
  | c :: rest, dropped =>
      if (c :: rest).length > dotdot ∧ dropped ≠ '/' then backtrack dotdot rest c
      else c :: rest

/-- The main loop of `path.Clean`: `p` is `path[r:]`, `out` the bytes written
so far (`out.w` is its length).  Every turn reads at least one byte. -/
def cleanLoop (rooted : Bool) : Nat → List Char → List Char → Nat → List Char
  | 0, _, out, _ => out
  | _ + 1, [], out, _ => out
  | fuel + 1, c :: rest, out, dotdot =>
      if c = '/' then
        cleanLoop rooted fuel rest out dotdot
      else if c = '.' ∧ (rest = [] ∨ rest.head? = some '/') then
        cleanLoop rooted fuel rest out dotdot
      else if c = '.' ∧ rest.head? = some '.' ∧
          (rest.tail = [] ∨ rest.tail.head? = some '/') then
        if out.length > dotdot then
          match out.reverse with
          | [] => cleanLoop rooted fuel rest.tail out dotdot
          | last :: front => cleanLoop rooted fuel rest.tail (backtrack dotdot front last).reverse dotdot
        else if ¬ rooted then
          let out := if out.length > 0 then out ++ ['/'] else out
          let out := out ++ ['.', '.']
          cleanLoop rooted fuel rest.tail out out.length
        else cleanLoop rooted fuel rest.tail out dotdot
      else
        let out :=
          if (rooted ∧ out.length ≠ 1) ∨ (¬ rooted ∧ out.length ≠ 0) then out ++ ['/'] else out
        cleanLoop rooted fuel ((c :: rest).dropWhile (fun x => x ≠ '/'))
          (out ++ (c :: rest).takeWhile (fun x => x ≠ '/')) dotdot

/-- The function `path.Clean`.  It looks only at the bytes `/` and `.`, which
are characters of their own in UTF-8, so the path is read by characters. -/
def Clean (path : String) : String :=
  if path = "" then "."
  else
    let rooted : Bool := path.data.head? = some '/'
    let out :=
      if rooted then cleanLoop rooted (path.data.length + 1) path.data.tail ['/'] 1
      else cleanLoop rooted (path.data.length + 1) path.data [] 0
    if out.length = 0 then "." else String.mk out

/-! ## `fmt.Scanln` on one string operand -/

/-- The ranges of the table `space` of package `fmt`. -/
def space : List (Nat × Nat) :=
  [(0x0009, 0x000d), (0x0020, 0x0020), (0x0085, 0x0085), (0x00a0, 0x00a0),
    (0x1680, 0x1680), (0x2000, 0x200a), (0x2028, 0x2029), (0x202f, 0x202f),
    (0x205f, 0x205f), (0x3000, 0x3000)]

/-- The loop of `isSpace` over the table. -/
def isSpaceIn (rx : Nat) : List (Nat × Nat) → Bool
  | [] => false
  | rng :: rest =>
      if rx < rng.1 then false else if rx ≤ rng.2 then true else isSpaceIn rx rest

/-- The function `isSpace` of package `fmt`. -/
def isSpace (r : Char) : Bool :=
  if r.toNat ≥ 1 <<< 16 then false else isSpaceIn r.toNat space

/-- The errors of a scan. -/
inductive ScanError where
  /-- The error `unexpected newline`. -/
  | unexpectedNewline
  /-- The error `expected newline`. -/
  | expectedNewline
  /-- The error `io.EOF`. -/
  | EOF
deriving DecidableEq, Repr

/-- The method `ss.SkipSpace` with `nlIsSpace` false: the input left and the
error raised, if any.  The input is the sequence of runes still to be read. -/
def SkipSpace : List Char → List Char × Option ScanError
  | [] => ([], none)
  | r :: rest =>
      if r = '\r' ∧ rest.head? = some '\n' then SkipSpace rest
      else if r = '\n' then (rest, some .unexpectedNewline)
      else if ¬ isSpace r then (r :: rest, none)
      else SkipSpace rest

/-- The loop of `ss.token` with the predicate `notSpace`: the runes of the
token and the input left. -/
def token : List Char → List Char × List Char
  | [] => ([], [])
  | r :: rest =>
      if isSpace r then ([], r :: rest)
      else ((token rest).1.cons r, (token rest).2)

/-- The loop at the end of `ss.doScan` with `nlIsEnd` true: the input left and
the error raised, if any. -/
def expectNewline : List Char → List Char × Option ScanError
  | [] => ([], none)
  | r :: rest =>
      if r = '\n' then (rest, none)
      else if ¬ isSpace r then (rest, some .expectedNewline)
      else expectNewline rest

/-- What a call `fmt.Scanln(&v)` leaves: the operand, the input and the error. -/
structure Scanned where
  v : String
  stdin : List Char
  err : Option ScanError
deriving DecidableEq, Repr

/-- The call `fmt.Scanln(&v)` for a string `v` on the runes of standard input.
The operand is assigned only when a token was read. -/
def Scanln (v : String) (stdin : List Char) : Scanned :=
  match SkipSpace stdin with
  | (rest, some e) => ⟨v, rest, some e⟩
  | ([], none) => ⟨v, [], some .EOF⟩
  | (rest, none) =>
      match SkipSpace rest with
      | (rest, some e) => ⟨v, rest, some e⟩
      | (rest, none) =>
          let tok := token rest
          let nl := expectNewline tok.2
          ⟨String.mk tok.1, nl.1, nl.2⟩

/-! ## The set-up wizard: `Scan` -/

/-- The terminal: the runes still to be read from standard input and the texts
printed so far. -/
structure Console where
  stdin : List Char
  stdout : List String
deriving DecidableEq, Repr

/-- The call `fmt.Print(text)`. -/
def Print (t : Console) (text : String) : Console := { t with stdout := t.stdout ++ [text] }

/-- The console after a call of `fmt.Scanln`. -/
def Console.scanned (t : Console) (r : Scanned) : Console := { t with stdin := r.stdin }

/-- Lines 186 to 205 of `Scan`: the database prompts. -/
def scanDatabase (conf : configType) (t : Console) : configType × Console :=
  let t := Print t " > DB Hostname (default 127.0.0.1:3306): "
  let r := Scanln conf.MySQL.Hostname t.stdin
  let conf := { conf with MySQL := { conf.MySQL with Hostname := r.v } }
  let t := t.scanned r
  let conf :=
    if len conf.MySQL.Hostname = 0 then
      { conf with MySQL := { conf.MySQL with Hostname := "127.0.0.1:3306" } }
    else conf
  let t := Print t " > DB User (default root): "
  let r := Scanln conf.MySQL.Username t.stdin
  let conf := { conf with MySQL := { conf.MySQL with Username := r.v } }
  let t := t.scanned r
  let conf :=
    if len conf.MySQL.Username = 0 then
      { conf with MySQL := { conf.MySQL with Username := "root" } }
    else conf
  let t := Print t " > DB Password: "
  let r := Scanln conf.MySQL.Password t.stdin
  let conf := { conf with MySQL := { conf.MySQL with Password := r.v } }
  let t := t.scanned r
  let t := Print t " > DB Name (default semaphore): "
  let r := Scanln conf.MySQL.DbName t.stdin
  let conf := { conf with MySQL := { conf.MySQL with DbName := r.v } }
  let t := t.scanned r
  let conf :=
    if len conf.MySQL.DbName = 0 then
      { conf with MySQL := { conf.MySQL with DbName := "semaphore" } }
    else conf
  (conf, t)

/-- Lines 207 to 216 of `Scan`: the playbook path and the web root. -/
def scanPaths (conf : configType) (t : Console) : configType × Console :=
  let t := Print t " > Playbook path: "
  let r := Scanln conf.TmpPath t.stdin
  let conf := { conf with TmpPath := r.v }
  let t := t.scanned r
  let conf := if len conf.TmpPath = 0 then { conf with TmpPath := "/tmp/semaphore" } else conf
  let conf := { conf with TmpPath := Clean conf.TmpPath }
  let t := Print t " > Web root URL (optional, example http://localhost:8010/): "
  let r := Scanln conf.WebHost t.stdin
  let conf := { conf with WebHost := r.v }
  let t := t.scanned r
  (conf, t)

/-- Lines 218 to 248 of `Scan`: the email section. -/
def scanEmail (conf : configType) (t : Console) : configType × Console :=
  let EmailAlertAnswer := ""
  let t := Print t " > Enable email alerts (y/n, default n): "
  let r := Scanln EmailAlertAnswer t.stdin
  let EmailAlertAnswer := r.v
  let t := t.scanned r
  if EmailAlertAnswer = "yes" ∨ EmailAlertAnswer = "y" then
    let conf := { conf with EmailAlert := true }
    let t := Print t " > Mail server host (default localhost): "
    let r := Scanln conf.EmailHost t.stdin
    let conf := { conf with EmailHost := r.v }
    let t := t.scanned r
    let conf := if len conf.EmailHost = 0 then { conf with EmailHost := "localhost" } else conf
    let t := Print t " > Mail server port (default 25): "
    let r := Scanln conf.EmailPort t.stdin
    let conf := { conf with EmailPort := r.v }
    let t := t.scanned r
    let conf := if len conf.EmailPort = 0 then { conf with EmailPort := "25" } else conf
    let t := Print t " > Mail sender address (default semaphore@localhost): "
    let r := Scanln conf.EmailSender t.stdin
    let conf := { conf with EmailSender := r.v }
    let t := t.scanned r
    let conf :=
      if len conf.EmailSender = 0 then { conf with EmailSender := "semaphore@localhost" }
      else conf
    (conf, t)
  else
    ({ conf with EmailAlert := false }, t)

/-- Lines 250 to 273 of `Scan`: the telegram section. -/
def scanTelegram (conf : configType) (t : Console) : configType × Console :=
  let TelegramAlertAnswer := ""
  let t := Print t " > Enable telegram alerts (y/n, default n): "
  let r := Scanln TelegramAlertAnswer t.stdin
  let TelegramAlertAnswer := r.v
  let t := t.scanned r
  if TelegramAlertAnswer = "yes" ∨ TelegramAlertAnswer = "y" then
    let conf := { conf with TelegramAlert := true }
    let t := Print t " > Telegram bot token (you can get it from @BotFather) (default ''): "
    let r := Scanln conf.TelegramToken t.stdin
    let conf := { conf with TelegramToken := r.v }
    let t := t.scanned r
    let conf := if len conf.TelegramToken = 0 then { conf with TelegramToken := "" } else conf
    let t := Print t " > Telegram chat ID (default ''): "
    let r := Scanln conf.TelegramChat t.stdin
    let conf := { conf with TelegramChat := r.v }
    let t := t.scanned r
    let conf := if len conf.TelegramChat = 0 then { conf with TelegramChat := "" } else conf
    (conf, t)
  else
    ({ conf with TelegramAlert := false }, t)

/-- Lines 282 to 296 of `Scan`: the LDAP server and the TLS question. -/
def scanLdapServer (conf : configType) (t : Console) : configType × Console :=
  let t := Print t " > LDAP server host (default localhost:389): "
  let r := Scanln conf.LdapServer t.stdin
  let conf := { conf with LdapServer := r.v }
  let t := t.scanned r
  let conf := if len conf.LdapServer = 0 then { conf with LdapServer := "localhost:389" } else conf
  let LdapTLSAnswer := ""
  let t := Print t " > Enable LDAP TLS connection (y/n, default n): "
  let r := Scanln LdapTLSAnswer t.stdin
  let LdapTLSAnswer := r.v
  let t := t.scanned r
  let conf :=
    if LdapTLSAnswer = "yes" ∨ LdapTLSAnswer = "y" then { conf with LdapNeedTLS := true }
    else { conf with LdapNeedTLS := false }
  (conf, t)

/-- Lines 298 to 310 of `Scan`: the bind DN and its password. -/
def scanLdapBind (conf : configType) (t : Console) : configType × Console :=
  let t := Print t " > LDAP DN for bind (default cn=user,ou=users,dc=example): "
  let r := Scanln conf.LdapBindDN t.stdin
  let conf := { conf with LdapBindDN := r.v }
  let t := t.scanned r
  let conf :=
    if len conf.LdapBindDN = 0 then { conf with LdapBindDN := "cn=user,ou=users,dc=example" }
    else conf
  let t := Print t " > Password for LDAP bind user (default pa55w0rd): "
  let r := Scanln conf.LdapBindPassword t.stdin
  let conf := { conf with LdapBindPassword := r.v }
  let t := t.scanned r
  let conf :=
    if len conf.LdapBindPassword = 0 then { conf with LdapBindPassword := "pa55w0rd" } else conf
  (conf, t)

/-- Lines 312 to 324 of `Scan`: the search DN and the search filter. -/
def scanLdapSearch (conf : configType) (t : Console) : configType × Console :=
  let t := Print t " > LDAP DN for user search (default ou=users,dc=example): "
  let r := Scanln conf.LdapSearchDN t.stdin
  let conf := { conf with LdapSearchDN := r.v }
  let t := t.scanned r
  let conf :=
    if len conf.LdapSearchDN = 0 then { conf with LdapSearchDN := "ou=users,dc=example" }
    else conf
  let t := Print t (" > LDAP search filter (default (uid=" ++ "%" ++ "s)): ")
  let r := Scanln conf.LdapSearchFilter t.stdin
  let conf := { conf with LdapSearchFilter := r.v }
  let t := t.scanned r
  let conf :=
    if len conf.LdapSearchFilter = 0 then { conf with LdapSearchFilter := "(uid=%s)" } else conf
  (conf, t)

/-- Lines 326 to 338 of `Scan`: the mappings of the DN and of the user name. -/
def scanLdapMappingsDN (conf : configType) (t : Console) : configType × Console :=
  let t := Print t " > LDAP mapping for DN field (default dn): "
  let r := Scanln conf.LdapMappings.DN t.stdin
  let conf := { conf with LdapMappings := { conf.LdapMappings with DN := r.v } }
  let t := t.scanned r
  let conf :=
    if len conf.LdapMappings.DN = 0 then
      { conf with LdapMappings := { conf.LdapMappings with DN := "dn" } }
    else conf
  let t := Print t " > LDAP mapping for username field (default uid): "
  let r := Scanln conf.LdapMappings.Uid t.stdin
  let conf := { conf with LdapMappings := { conf.LdapMappings with Uid := r.v } }
  let t := t.scanned r
  let conf :=
    if len conf.LdapMappings.Uid = 0 then
      { conf with LdapMappings := { conf.LdapMappings with Uid := "uid" } }
    else conf
  (conf, t)

/-- Lines 340 to 352 of `Scan`: the mappings of the full name and of the mail. -/
def scanLdapMappingsCN (conf : configType) (t : Console) : configType × Console :=
  let t := Print t " > LDAP mapping for full name field (default cn): "
  let r := Scanln conf.LdapMappings.CN t.stdin
  let conf := { conf with LdapMappings := { conf.LdapMappings with CN := r.v } }
  let t := t.scanned r
  let conf :=
    if len conf.LdapMappings.CN = 0 then
      { conf with LdapMappings := { conf.LdapMappings with CN := "cn" } }
    else conf
  let t := Print t " > LDAP mapping for email field (default mail): "
  let r := Scanln conf.LdapMappings.Mail t.stdin
  let conf := { conf with LdapMappings := { conf.LdapMappings with Mail := r.v } }
  let t := t.scanned r
  let conf :=
    if len conf.LdapMappings.Mail = 0 then
      { conf with LdapMappings := { conf.LdapMappings with Mail := "mail" } }
    else conf
  (conf, t)

/-- Lines 275 to 356 of `Scan`: the LDAP section. -/
def scanLdap (conf : configType) (t : Console) : configType × Console :=
  let LdapAnswer := ""
  let t := Print t " > Enable LDAP authentication (y/n, default n): "
  let r := Scanln LdapAnswer t.stdin
  let LdapAnswer := r.v
  let t := t.scanned r
  if LdapAnswer = "yes" ∨ LdapAnswer = "y" then
    let conf := { conf with LdapEnable := true }
    let s := scanLdapServer conf t
    let s := scanLdapBind s.1 s.2
    let s := scanLdapSearch s.1 s.2
    let s := scanLdapMappingsDN s.1 s.2
    scanLdapMappingsCN s.1 s.2
  else
    ({ conf with LdapEnable := false }, t)

/-- The document and the console when `Scan` reaches the LDAP question
(line 275). -/
def scanBeforeLdap (conf : configType) (t : Console) : configType × Console :=
  let s := scanDatabase conf t
  let s := scanPaths s.1 s.2
  let s := scanEmail s.1 s.2
  scanTelegram s.1 s.2

/-- The method `configType.Scan`: the document it leaves and the console. -/
def Scan (conf : configType) (t : Console) : configType × Console :=
  let s := scanBeforeLdap conf t
  scanLdap s.1 s.2

/-- The standard input on which every one of `lines` is typed and ended by
the return key, and `rest` follows. -/
def typed : List String → List Char → List Char
  | [], rest => rest
  | l :: ls, rest => l.data ++ '\n' :: typed ls rest

/-- The first word of a line: what is left of it after the leading white space,
up to the next white space. -/
def firstWord (line : List Char) : List Char :=
  (line.dropWhile isSpace).takeWhile (fun c => ! isSpace c)

/-- A line without white space. -/
abbrev Spaceless (l : String) : Prop := ∀ c ∈ l.data, isSpace c = false

/-- The text of a line, or the default for the empty line. -/
def orDefault (l dflt : String) : String := if l = "" then dflt else l

/-- The LDAP settings of a document: the flag, the bind DN and password, the
server, the TLS flag, the search DN and filter and the mappings. -/
def ldapPart (c : configType) :
    Bool × String × String × String × Bool × String × String × ldapMappings :=
  (c.LdapEnable, c.LdapBindDN, c.LdapBindPassword, c.LdapServer, c.LdapNeedTLS,
    c.LdapSearchDN, c.LdapSearchFilter, c.LdapMappings)

/-! ## The wizard by whole lines -/

/-- The line typed at the prompt that is the `k`-th to read, counting from 0:
the empty line when fewer lines are typed. -/
def lineAt (lines : List String) (k : Nat) : String := lines.getD k ""

/-- The email section as section 4.4 of the specification words it, on whole
lines, from line `k` on: the document and the index of the next line. -/
def wizardEmail (conf : configType) (lines : List String) (k : Nat) : configType × Nat :=
  if lineAt lines k = "y" ∨ lineAt lines k = "yes" then
    ({ conf with
        EmailAlert := true
        EmailHost := orDefault (lineAt lines (k + 1)) "localhost"
        EmailPort := orDefault (lineAt lines (k + 2)) "25"
        EmailSender := orDefault (lineAt lines (k + 3)) "semaphore@localhost" }, k + 4)
  else ({ conf with EmailAlert := false }, k + 1)

/-- The telegram section as section 4.4 of the specification words it, on
whole lines, from line `k` on. -/
def wizardTelegram (conf : configType) (lines : List String) (k : Nat) : configType × Nat :=
  if lineAt lines k = "y" ∨ lineAt lines k = "yes" then
    ({ conf with
        TelegramAlert := true
        TelegramToken := lineAt lines (k + 1)
        TelegramChat := lineAt lines (k + 2) }, k + 3)
  else ({ conf with TelegramAlert := false }, k + 1)

/-- The LDAP section as section 4.4 of the specification words it, on whole
lines, from line `k` on. -/
def wizardLdap (conf : configType) (lines : List String) (k : Nat) : configType × Nat :=
  if lineAt lines k = "y" ∨ lineAt lines k = "yes" then
    ({ conf with
        LdapEnable := true
        LdapServer := orDefault (lineAt lines (k + 1)) "localhost:389"
        LdapNeedTLS := decide (lineAt lines (k + 2) = "y" ∨ lineAt lines (k + 2) = "yes")
        LdapBindDN := orDefault (lineAt lines (k + 3)) "cn=user,ou=users,dc=example"
        LdapBindPassword := orDefault (lineAt lines (k + 4)) "pa55w0rd"
        LdapSearchDN := orDefault (lineAt lines (k + 5)) "ou=users,dc=example"
        LdapSearchFilter := orDefault (lineAt lines (k + 6)) "(uid=%s)"
        LdapMappings :=
          { DN := orDefault (lineAt lines (k + 7)) "dn"
            Uid := orDefault (lineAt lines (k + 8)) "uid"
            CN := orDefault (lineAt lines (k + 9)) "cn"
            Mail := orDefault (lineAt lines (k + 10)) "mail" } }, k + 11)
  else ({ conf with LdapEnable := false }, k + 1)

/-- The wizard as section 4.4 of the specification words it, on whole lines
and from a fresh document: every prompt takes the next line, the empty line
stands for the default of the prompt and any other line is used as it is; the
work directory is normalised; the prompts of the email, telegram and LDAP
sections are asked only after the answer `y` or `yes`.  The result is the
document and the number of lines read. -/
def wizardByLines (lines : List String) : configType × Nat :=
  let conf : configType :=
    { NewConfig with
      MySQL := ⟨orDefault (lineAt lines 0) "127.0.0.1:3306", orDefault (lineAt lines 1) "root",
                lineAt lines 2, orDefault (lineAt lines 3) "semaphore"⟩
      TmpPath := Clean (orDefault (lineAt lines 4) "/tmp/semaphore")
      WebHost := lineAt lines 5 }
  let s := wizardEmail conf lines 6
  let s := wizardTelegram s.1 lines s.2
  wizardLdap s.1 lines s.2

/-! ## Go strings: lemmas -/

theorem len_eq_zero_iff (s : String) : len s = 0 ↔ s = "" := by
  cases s with
  | mk data =>
    cases data with
    | nil => simp [len, String.utf8ByteSize, String.utf8ByteSize.go]
    | cons c cs =>
      have h := Char.utf8Size_pos c
      simp only [len, String.utf8ByteSize, String.utf8ByteSize.go]
      constructor
      · intro h0; omega
      · intro h0; exact absurd (congrArg String.data h0) (by simp)

theorem len_pos_iff (s : String) : len s > 0 ↔ s ≠ "" := by
  rw [← not_iff_not, not_not, ← len_eq_zero_iff]; omega

theorem colon_append_ne_empty (v : String) : ":" ++ v ≠ "" := by
  intro h
  have := congrArg String.data h
  simp at this

/-! ## `path.Clean`: the loop ends -/

/-- The fuel of the loop of `path.Clean` does not matter once it covers the
path: the loop ends by reading the path to its end. -/
theorem cleanLoop_fuel (rooted : Bool) (f g : Nat) (p out : List Char) (dotdot : Nat)
    (hf : p.length ≤ f) (hg : p.length ≤ g) :
    cleanLoop rooted f p out dotdot = cleanLoop rooted g p out dotdot := by
  induction f generalizing g p out dotdot with
  | zero =>
    have : p = [] := List.length_eq_zero.mp (Nat.le_zero.mp hf)
    subst this
    cases g <;> simp [cleanLoop]
  | succ f ih =>
    cases g with
    | zero =>
      have : p = [] := List.length_eq_zero.mp (Nat.le_zero.mp hg)
      subst this
      simp [cleanLoop]
    | succ g =>
      cases p with
      | nil => simp [cleanLoop]
      | cons c rest =>
        simp only [List.length_cons] at hf hg
        have h1 : rest.length ≤ f := by omega
        have h2 : rest.length ≤ g := by omega
        have h3 : rest.tail.length ≤ f := by simp only [List.length_tail]; omega
        have h4 : rest.tail.length ≤ g := by simp only [List.length_tail]; omega
        simp only [cleanLoop]
        by_cases hc : c = '/'
        · rw [if_pos hc, if_pos hc]; exact ih _ _ _ _ h1 h2
        · rw [if_neg hc, if_neg hc]
          have h5 : ((c :: rest).dropWhile (fun x => decide (x ≠ '/'))).length ≤ rest.length := by
            rw [List.dropWhile_cons_of_pos (by simpa using hc)]
            exact (List.dropWhile_sublist _).length_le
          split_ifs
          all_goals
            first
            | exact ih _ _ _ _ h1 h2
            | exact ih _ _ _ _ h3 h4
            | exact ih _ _ _ _ (by omega) (by omega)
            | (split <;> exact ih _ _ _ _ h3 h4)

/-! ## The field defaults -/

theorem resolveFields_unset (d : configType) (PORT : Option String)
    (hport : PORT = none ∨ PORT = some "") :
    resolveFields PORT d =
      { d with
        Port := if d.Port = "" then ":3000" else d.Port
        TmpPath := if d.TmpPath = "" then "/tmp/semaphore" else d.TmpPath
        MaxParallelTasks := if d.MaxParallelTasks ≤ 0 then 10 else d.MaxParallelTasks } := by
  have hg : Getenv PORT = "" := by rcases hport with h | h <;> simp [h, Getenv]
  have h0 : ¬ (len "" > 0) := by simp [len_pos_iff]
  simp only [resolveFields, hg, h0, if_false, len_eq_zero_iff]
  have h3 : d.MaxParallelTasks < 1 ↔ d.MaxParallelTasks ≤ 0 := by omega
  by_cases h1 : d.Port = "" <;> by_cases h2 : d.TmpPath = "" <;>
    by_cases h4 : d.MaxParallelTasks ≤ 0 <;>
    simp [h1, h2, h3, h4]

theorem resolveFields_port_set (d : configType) (v : String) (hv : v ≠ "") :
    (resolveFields (some v) d).Port = ":" ++ v := by
  have h1 : len (Getenv (some v)) > 0 := by simpa [Getenv, len_pos_iff] using hv
  have h2 : ¬ (len (":" ++ v) = 0) := by
    rw [len_eq_zero_iff]; exact colon_append_ne_empty v
  simp only [resolveFields, h1, if_true, h2, if_false]
  simp only [Getenv, Option.getD_some]
  split_ifs <;> rfl

theorem init_of_loads {URL : Type} (env : Env URL) (flags : Flags) (d : configType)
    (h : Loads env flags d) :
    init env flags = resolve env (load env flags).1 (some d) := by
  obtain ⟨hp, hh, hl⟩ := h
  have h0 : ¬ (len flags.hash > 0) := by simp [hh, len_pos_iff]
  simp only [init, hp, Bool.false_eq_true, if_false, h0]
  rcases hld : load env flags with ⟨ev, o | c⟩
  · rw [hld] at hl; simp at hl
  · rw [hld] at hl
    simp only [Sum.inr.injEq] at hl
    simp [hl]

theorem resolve_config {URL : Type} (env : Env URL) (ev : List Event) (d : configType) :
    (resolve env ev (some d)).globals.Config = some (resolveFields env.PORT d) := by
  simp only [resolve]
  split <;> rfl

theorem resolve_cookie {URL : Type} (env : Env URL) (ev : List Event) (d : configType) :
    (resolve env ev (some d)).globals.Cookie = some (cookieKeys (resolveFields env.PORT d)) := by
  simp only [resolve]
  split <;> rfl

theorem resolve_returns {URL : Type} (env : Env URL) (ev : List Event) (d : configType)
    (u : URL) (hu : env.urlParse d.WebHost = some u) :
    (resolve env ev (some d)).outcome = .returned := by
  have hw : (resolveFields env.PORT d).WebHost = d.WebHost := by
    simp only [resolveFields]
    split_ifs <;> rfl
  simp only [resolve, hw, hu]

theorem init_of_loadsNil {URL : Type} (env : Env URL) (flags : Flags)
    (h : LoadsNil env flags) :
    init env flags = resolve env (load env flags).1 none := by
  obtain ⟨hp, hh, hl⟩ := h
  have h0 : ¬ (len flags.hash > 0) := by simp [hh, len_pos_iff]
  simp only [init, hp, Bool.false_eq_true, if_false, h0]
  rcases hld : load env flags with ⟨ev, o | c⟩
  · rw [hld] at hl; simp at hl
  · rw [hld] at hl
    simp only [Sum.inr.injEq] at hl
    simp [hl]

theorem resolve_panics {URL : Type} (env : Env URL) (ev : List Event) (d : configType)
    (hu : env.urlParse d.WebHost = none) :
    (resolve env ev (some d)).outcome = .panic .nilDereference := by
  have hw : (resolveFields env.PORT d).WebHost = d.WebHost := by
    simp only [resolveFields]
    split_ifs <;> rfl
  simp only [resolve, hw, hu]

/-! ## Resolution of the port, the work directory and the task limit -/

/-- C1: with `PORT` unset or empty, for every document that loads, the
document `init` leaves in `Config` is the loaded one with an empty port
replaced by `:3000`, an empty work directory by `/tmp/semaphore` and a task
limit below 1 by 10, everything else kept; and `init` returns whenever the URL
parser accepts the web host. -/
theorem init_applies_defaults {URL : Type} (env : Env URL) (flags : Flags) (d : configType)
    (hload : Loads env flags d) (hport : env.PORT = none ∨ env.PORT = some "") :
    (init env flags).globals.Config = some
      { d with
        Port := if d.Port = "" then ":3000" else d.Port
        TmpPath := if d.TmpPath = "" then "/tmp/semaphore" else d.TmpPath
        MaxParallelTasks := if d.MaxParallelTasks ≤ 0 then 10 else d.MaxParallelTasks } ∧
    (∀ u, env.urlParse d.WebHost = some u → (init env flags).outcome = .returned) := by
  rw [init_of_loads env flags d hload, resolve_config, resolveFields_unset d env.PORT hport]
  exact ⟨rfl, fun u hu => resolve_returns env _ d u hu⟩

/-- Witness of C1: a loaded document with no port, no work directory and a
negative task limit. -/
theorem init_applies_defaults_witness :
    Loads (fileEnv none (some { NewConfig with MaxParallelTasks := -4 })) fileFlags
      { NewConfig with MaxParallelTasks := -4 } ∧
    (init (fileEnv none (some { NewConfig with MaxParallelTasks := -4 })) fileFlags).globals.Config
      = some { NewConfig with Port := ":3000", TmpPath := "/tmp/semaphore",
                              MaxParallelTasks := 10 } :=
  ⟨by decide,
   (init_applies_defaults (fileEnv none (some { NewConfig with MaxParallelTasks := -4 }))
      fileFlags { NewConfig with MaxParallelTasks := -4 } (by decide) (Or.inl rfl)).1⟩

/-- C2: for every document that loads and every non-empty value `v` of `PORT`,
the port `init` leaves in `Config` is `:` followed by `v`, whatever the loaded
port was; so `PORT=8080` gives `:8080`; and `init` returns whenever the URL
parser accepts the web host. -/
theorem init_port_override {URL : Type} (env : Env URL) (flags : Flags) (d : configType)
    (v : String) (hload : Loads env flags d) (hport : env.PORT = some v) (hv : v ≠ "") :
    (∃ c, (init env flags).globals.Config = some c ∧ c.Port = ":" ++ v ∧
      (v = "8080" → c.Port = ":8080")) ∧
    (∀ u, env.urlParse d.WebHost = some u → (init env flags).outcome = .returned) := by
  rw [init_of_loads env flags d hload, resolve_config, hport]
  refine ⟨⟨_, rfl, resolveFields_port_set d v hv, ?_⟩, fun u hu => resolve_returns env _ d u hu⟩
  intro h8
  rw [resolveFields_port_set d v hv, h8]
  rfl

/-- Witness of C2: `PORT=8080` against a document whose port is `:3000`. -/
theorem init_port_override_witness :
    Loads (fileEnv (some "8080") (some { NewConfig with Port := ":3000" })) fileFlags
      { NewConfig with Port := ":3000" } ∧
    ∃ c, (init (fileEnv (some "8080") (some { NewConfig with Port := ":3000" }))
        fileFlags).globals.Config = some c ∧ c.Port = ":" ++ "8080" ∧
      ("8080" = "8080" → c.Port = ":8080") :=
  ⟨by decide,
   (init_port_override (fileEnv (some "8080") (some { NewConfig with Port := ":3000" }))
      fileFlags { NewConfig with Port := ":3000" } "8080" (by decide) rfl (by decide)).1⟩

/-- C3, the code at the failing input: the document `{"port": "3000"}` loads,
`PORT` is unset, `init` returns, and the port it leaves in `Config` is `3000`,
which does not begin with `:` as the comment on `configType.Port` and the
other two ways of setting the port (lines 148 and 151) have it. -/
theorem port_without_colon_kept :
    Loads (fileEnv none (some { NewConfig with Port := "3000" })) fileFlags
      { NewConfig with Port := "3000" } ∧
    (init (fileEnv none (some { NewConfig with Port := "3000" })) fileFlags).outcome
      = .returned ∧
    ∃ c, (init (fileEnv none (some { NewConfig with Port := "3000" })) fileFlags).globals.Config
        = some c ∧ c.Port = "3000" ∧ ¬ beginsWith c.Port ':' := by
  refine ⟨by decide, by decide, _, rfl, by decide, by decide⟩

/-! ## Faults of `init` -/

/-- C10, the code at the failing inputs: when decoding succeeds and leaves
`Config` nil, as it does for the JSON literal `null`, `init` panics on a nil
pointer; and for every document that loads and whose web host `url.Parse`
rejects, `init` panics on a nil pointer as well. -/
theorem init_nil_dereference {URL : Type} (env : Env URL) (flags : Flags) :
    (LoadsNil env flags → (init env flags).outcome = .panic .nilDereference) ∧
    (∀ d, Loads env flags d → env.urlParse d.WebHost = none →
      (init env flags).outcome = .panic .nilDereference) := by
  refine ⟨fun h => ?_, fun d h hu => ?_⟩
  · rw [init_of_loadsNil env flags h]; rfl
  · rw [init_of_loads env flags d h]; exact resolve_panics env _ d hu

/-- Witness of C10: a file that decodes to nil, and a document whose web host
is `:foo`, in an environment whose URL parser rejects a leading colon. -/
theorem init_nil_dereference_witness :
    (LoadsNil (fileEnv none none) fileFlags ∧
      (init (fileEnv none none) fileFlags).outcome = .panic .nilDereference) ∧
    (Loads (fileEnv none (some { NewConfig with WebHost := ":foo" })) fileFlags
        { NewConfig with WebHost := ":foo" } ∧
      (init (fileEnv none (some { NewConfig with WebHost := ":foo" })) fileFlags).outcome
        = .panic .nilDereference) :=
  ⟨⟨by decide, (init_nil_dereference (fileEnv none none) fileFlags).1 (by decide)⟩,
   ⟨by decide,
    (init_nil_dereference (fileEnv none (some { NewConfig with WebHost := ":foo" }))
      fileFlags).2 { NewConfig with WebHost := ":foo" } (by decide) (by decide)⟩⟩

/-! ## `fmt.Scanln`: what one call reads -/

theorem SkipSpace_line (line rest : List Char) (hline : '\n' ∉ line) :
    SkipSpace (line ++ '\n' :: rest) =
      if line.dropWhile isSpace = [] then (rest, some .unexpectedNewline)
      else (line.dropWhile isSpace ++ '\n' :: rest, none) := by
  induction line with
  | nil => simp [SkipSpace]
  | cons r line ih =>
    have hr : r ≠ '\n' := fun h => hline (by simp [h])
    have hl : '\n' ∉ line := fun h => hline (by simp [h])
    rw [List.cons_append, SkipSpace]
    by_cases hs : isSpace r = true
    · simp only [hr, hs, not_true_eq_false, if_false, List.dropWhile_cons, if_true, ite_self]
      exact ih hl
    · have hcr : r ≠ '\r' := fun h => hs (by rw [h]; decide)
      simp [hr, hs, hcr, List.dropWhile_cons]

theorem SkipSpace_word (r : Char) (rest : List Char) (hr : isSpace r = false) :
    SkipSpace (r :: rest) = (r :: rest, none) := by
  have h1 : r ≠ '\r' := fun h => by rw [h] at hr; exact absurd hr (by decide)
  have h2 : r ≠ '\n' := fun h => by rw [h] at hr; exact absurd hr (by decide)
  simp [SkipSpace, h1, h2, hr]

theorem token_eq (l : List Char) :
    token l = (l.takeWhile (fun c => ! isSpace c), l.dropWhile (fun c => ! isSpace c)) := by
  induction l with
  | nil => rfl
  | cons r l ih =>
    by_cases hs : isSpace r = true
    · simp [token, hs]
    · simp [token, hs, ih]

theorem dropWhile_isSpace_head (line : List Char) (r : Char) (w : List Char)
    (h : line.dropWhile isSpace = r :: w) : isSpace r = false := by
  induction line with
  | nil => simp at h
  | cons a line ih =>
    by_cases hs : isSpace a = true
    · simp only [List.dropWhile_cons, hs, if_true] at h
      exact ih h
    · simp only [List.dropWhile_cons, hs] at h
      simp only [Bool.false_eq_true, if_false, List.cons.injEq] at h
      rw [← h.1]
      simpa using hs

theorem dropWhile_isSpace_no_newline (line : List Char) (hline : '\n' ∉ line) :
    '\n' ∉ line.dropWhile isSpace := fun h =>
  hline ((List.dropWhile_sublist _).subset h)

/-- The operand after `Scanln` has read a line: the first word of the line, or
the old value when the line holds white space only. -/
theorem Scanln_line (v : String) (line rest : List Char) (hline : '\n' ∉ line) :
    (Scanln v (line ++ '\n' :: rest)).v =
      if firstWord line = [] then v else String.mk (firstWord line) := by
  unfold Scanln
  rw [SkipSpace_line line rest hline]
  cases hw : line.dropWhile isSpace with
  | nil => simp [firstWord, hw]
  | cons r w =>
    have hr := dropWhile_isSpace_head line r w hw
    simp only [reduceCtorEq, if_false, List.cons_append]
    rw [SkipSpace_word r _ hr]
    simp only [token_eq]
    have hf : firstWord line ≠ [] := by
      simp [firstWord, hw, List.takeWhile_cons, hr]
    rw [if_neg hf]
    have hnl : '\n' ∉ r :: w := by
      rw [← hw]; exact dropWhile_isSpace_no_newline line hline
    have : List.takeWhile (fun c => ! isSpace c) (r :: (w ++ '\n' :: rest)) = firstWord line := by
      rw [firstWord, hw, ← List.cons_append]
      clear hw hf hr
      generalize r :: w = l at hnl
      induction l with
      | nil =>
        have hnl : isSpace '\n' = true := by decide
        simp [List.takeWhile_cons, hnl]
      | cons a l ih =>
        have hl : '\n' ∉ l := fun h => hnl (by simp [h])
        simp only [List.cons_append, List.takeWhile_cons]
        split
        · rw [ih hl]
        · rfl
    rw [this]

theorem Scanln_empty_line (v : String) (rest : List Char) :
    Scanln v ('\n' :: rest) = ⟨v, rest, some .unexpectedNewline⟩ := by
  simp [Scanln, SkipSpace]

theorem Scanln_spaceless (v l : String) (rest : List Char) (hl : Spaceless l) (hne : l ≠ "") :
    Scanln v (l.data ++ '\n' :: rest) = ⟨l, rest, none⟩ := by
  obtain ⟨data⟩ := l
  cases data with
  | nil => exact absurd rfl hne
  | cons r w =>
    have hr : isSpace r = false := hl r (by simp)
    have hw : ∀ c ∈ w, isSpace c = false := fun c hc => hl c (by simp [hc])
    have htake : ∀ (w : List Char), (∀ c ∈ w, isSpace c = false) →
        List.takeWhile (fun c => ! isSpace c) (w ++ '\n' :: rest) = w ∧
        List.dropWhile (fun c => ! isSpace c) (w ++ '\n' :: rest) = '\n' :: rest := by
      intro w
      induction w with
      | nil =>
        intro _
        have hnl : isSpace '\n' = true := by decide
        simp [List.takeWhile_cons, List.dropWhile_cons, hnl]
      | cons a w ih =>
        intro h
        have ha : isSpace a = false := h a (by simp)
        have := ih (fun c hc => h c (by simp [hc]))
        simp [List.takeWhile_cons, List.dropWhile_cons, ha, this]
    have h2 := htake (r :: w) (fun c hc => hl c hc)
    simp only [List.cons_append] at h2
    simp only [Scanln, List.cons_append, SkipSpace_word r _ hr, token_eq, h2.1, h2.2,
      expectNewline, if_true]

theorem Scanln_typed (v l : String) (ls : List String) (rest : List Char) (hl : Spaceless l) :
    Scanln v (typed (l :: ls) rest) =
      ⟨if l = "" then v else l, typed ls rest,
        if l = "" then some .unexpectedNewline else none⟩ := by
  by_cases h : l = ""
  · subst h
    simp only [typed, if_true]
    exact Scanln_empty_line v _
  · simp only [typed, if_neg h]
    exact Scanln_spaceless v l _ hl h

/-! ## The sections of the wizard on lines without white space -/

theorem scanDatabase_typed (conf : configType) (h u p n : String) (ls : List String)
    (rest : List Char) (out : List String)
    (hconf : conf.MySQL = ⟨"", "", "", ""⟩)
    (hh : Spaceless h) (hu : Spaceless u) (hp : Spaceless p) (hn : Spaceless n) :
    scanDatabase conf ⟨typed (h :: u :: p :: n :: ls) rest, out⟩ =
      ({ conf with
          MySQL := ⟨orDefault h "127.0.0.1:3306", orDefault u "root", p,
                    orDefault n "semaphore"⟩ },
        ⟨typed ls rest, out ++ [" > DB Hostname (default 127.0.0.1:3306): ",
          " > DB User (default root): ", " > DB Password: ",
          " > DB Name (default semaphore): "]⟩) := by
  simp only [scanDatabase, Print, Console.scanned, Scanln_typed _ _ _ _ hh,
    Scanln_typed _ _ _ _ hu, Scanln_typed _ _ _ _ hp, Scanln_typed _ _ _ _ hn, hconf]
  by_cases h1 : h = "" <;> by_cases h2 : u = "" <;> by_cases h3 : p = "" <;>
    by_cases h4 : n = "" <;>
    simp [h1, h2, h3, h4, orDefault, len_eq_zero_iff]

theorem scanPaths_typed (conf : configType) (tmp web : String) (ls : List String)
    (rest : List Char) (out : List String)
    (h1 : conf.TmpPath = "") (h2 : conf.WebHost = "")
    (htmp : Spaceless tmp) (hweb : Spaceless web) :
    scanPaths conf ⟨typed (tmp :: web :: ls) rest, out⟩ =
      ({ conf with TmpPath := Clean (orDefault tmp "/tmp/semaphore"), WebHost := web },
        ⟨typed ls rest, out ++ [" > Playbook path: ",
          " > Web root URL (optional, example http://localhost:8010/): "]⟩) := by
  simp only [scanPaths, Print, Console.scanned, Scanln_typed _ _ _ _ htmp,
    Scanln_typed _ _ _ _ hweb, h1, h2]
  by_cases h3 : tmp = "" <;> by_cases h4 : web = "" <;>
    simp [h3, h4, orDefault, len_eq_zero_iff]

theorem scanEmail_no (conf : configType) (e : String) (ls : List String)
    (rest : List Char) (out : List String) (he : Spaceless e) (hno : ¬ (e = "yes" ∨ e = "y")) :
    scanEmail conf ⟨typed (e :: ls) rest, out⟩ =
      ({ conf with EmailAlert := false },
        ⟨typed ls rest, out ++ [" > Enable email alerts (y/n, default n): "]⟩) := by
  simp only [scanEmail, Print, Console.scanned, Scanln_typed _ _ _ _ he]
  by_cases h : e = ""
  · simp [h]
  · simp only [if_neg h, if_neg hno]

theorem scanTelegram_no (conf : configType) (g : String) (ls : List String)
    (rest : List Char) (out : List String) (hg : Spaceless g) (hno : ¬ (g = "yes" ∨ g = "y")) :
    scanTelegram conf ⟨typed (g :: ls) rest, out⟩ =
      ({ conf with TelegramAlert := false },
        ⟨typed ls rest, out ++ [" > Enable telegram alerts (y/n, default n): "]⟩) := by
  simp only [scanTelegram, Print, Console.scanned, Scanln_typed _ _ _ _ hg]
  by_cases h : g = ""
  · simp [h]
  · simp only [if_neg h, if_neg hno]

theorem scanLdapServer_typed (conf : configType) (srv tls : String) (ls : List String)
    (rest : List Char) (out : List String) (h1 : conf.LdapServer = "")
    (hsrv : Spaceless srv) (htls : Spaceless tls) :
    scanLdapServer conf ⟨typed (srv :: tls :: ls) rest, out⟩ =
      ({ conf with
          LdapServer := orDefault srv "localhost:389"
          LdapNeedTLS := decide (tls = "yes" ∨ tls = "y") },
        ⟨typed ls rest, out ++ [" > LDAP server host (default localhost:389): ",
          " > Enable LDAP TLS connection (y/n, default n): "]⟩) := by
  simp only [scanLdapServer, Print, Console.scanned, Scanln_typed _ _ _ _ hsrv,
    Scanln_typed _ _ _ _ htls, h1]
  by_cases h3 : srv = "" <;> by_cases h4 : tls = "" <;>
    by_cases h5 : (tls = "yes" ∨ tls = "y") <;>
    simp [h3, h4, h5, orDefault, len_eq_zero_iff]

theorem scanLdapBind_typed (conf : configType) (bdn bpw : String) (ls : List String)
    (rest : List Char) (out : List String)
    (h1 : conf.LdapBindDN = "") (h2 : conf.LdapBindPassword = "")
    (hbdn : Spaceless bdn) (hbpw : Spaceless bpw) :
    scanLdapBind conf ⟨typed (bdn :: bpw :: ls) rest, out⟩ =
      ({ conf with
          LdapBindDN := orDefault bdn "cn=user,ou=users,dc=example"
          LdapBindPassword := orDefault bpw "pa55w0rd" },
        ⟨typed ls rest, out ++ [" > LDAP DN for bind (default cn=user,ou=users,dc=example): ",
          " > Password for LDAP bind user (default pa55w0rd): "]⟩) := by
  simp only [scanLdapBind, Print, Console.scanned, Scanln_typed _ _ _ _ hbdn,
    Scanln_typed _ _ _ _ hbpw, h1, h2]
  by_cases h3 : bdn = "" <;> by_cases h4 : bpw = "" <;>
    simp [h3, h4, orDefault, len_eq_zero_iff]

theorem scanLdapSearch_typed (conf : configType) (sdn sf : String) (ls : List String)
    (rest : List Char) (out : List String)
    (h1 : conf.LdapSearchDN = "") (h2 : conf.LdapSearchFilter = "")
    (hsdn : Spaceless sdn) (hsf : Spaceless sf) :
    scanLdapSearch conf ⟨typed (sdn :: sf :: ls) rest, out⟩ =
      ({ conf with
          LdapSearchDN := orDefault sdn "ou=users,dc=example"
          LdapSearchFilter := orDefault sf "(uid=%s)" },
        ⟨typed ls rest, out ++ [" > LDAP DN for user search (default ou=users,dc=example): ",
          " > LDAP search filter (default (uid=%s)): "]⟩) := by
  simp only [scanLdapSearch, Print, Console.scanned, Scanln_typed _ _ _ _ hsdn,
    Scanln_typed _ _ _ _ hsf, h1, h2]
  have hs : " > LDAP search filter (default (uid=" ++ "%" ++ "s)): " =
      " > LDAP search filter (default (uid=%s)): " := by decide
  by_cases h3 : sdn = "" <;> by_cases h4 : sf = "" <;>
    simp [h3, h4, orDefault, len_eq_zero_iff, hs]

theorem scanLdapMappingsDN_typed (conf : configType) (m1 m2 : String) (ls : List String)
    (rest : List Char) (out : List String)
    (h1 : conf.LdapMappings.DN = "") (h2 : conf.LdapMappings.Uid = "")
    (hm1 : Spaceless m1) (hm2 : Spaceless m2) :
    scanLdapMappingsDN conf ⟨typed (m1 :: m2 :: ls) rest, out⟩ =
      ({ conf with
          LdapMappings := { conf.LdapMappings with DN := orDefault m1 "dn", Uid := orDefault m2 "uid" } },
        ⟨typed ls rest, out ++ [" > LDAP mapping for DN field (default dn): ",
          " > LDAP mapping for username field (default uid): "]⟩) := by
  simp only [scanLdapMappingsDN, Print, Console.scanned, Scanln_typed _ _ _ _ hm1,
    Scanln_typed _ _ _ _ hm2, h1, h2]
  by_cases h3 : m1 = "" <;> by_cases h4 : m2 = "" <;>
    simp [h3, h4, orDefault, len_eq_zero_iff]

theorem scanLdapMappingsCN_typed (conf : configType) (m3 m4 : String) (ls : List String)
    (rest : List Char) (out : List String)
    (h1 : conf.LdapMappings.CN = "") (h2 : conf.LdapMappings.Mail = "")
    (hm3 : Spaceless m3) (hm4 : Spaceless m4) :
    scanLdapMappingsCN conf ⟨typed (m3 :: m4 :: ls) rest, out⟩ =
      ({ conf with
          LdapMappings := { conf.LdapMappings with CN := orDefault m3 "cn", Mail := orDefault m4 "mail" } },
        ⟨typed ls rest, out ++ [" > LDAP mapping for full name field (default cn): ",
          " > LDAP mapping for email field (default mail): "]⟩) := by
  simp only [scanLdapMappingsCN, Print, Console.scanned, Scanln_typed _ _ _ _ hm3,
    Scanln_typed _ _ _ _ hm4, h1, h2]
  by_cases h3 : m3 = "" <;> by_cases h4 : m4 = "" <;>
    simp [h3, h4, orDefault, len_eq_zero_iff]

theorem scanLdap_no (conf : configType) (a : String) (ls : List String)
    (rest : List Char) (out : List String) (ha : Spaceless a) (hno : ¬ (a = "yes" ∨ a = "y")) :
    scanLdap conf ⟨typed (a :: ls) rest, out⟩ =
      ({ conf with LdapEnable := false },
        ⟨typed ls rest, out ++ [" > Enable LDAP authentication (y/n, default n): "]⟩) := by
  simp only [scanLdap, Print, Console.scanned, Scanln_typed _ _ _ _ ha]
  by_cases h : a = ""
  · simp [h]
  · simp only [if_neg h, if_neg hno]

theorem scanLdap_yes (conf : configType) (a srv tls bdn bpw sdn sf m1 m2 m3 m4 : String)
    (ls : List String) (rest : List Char) (out : List String)
    (h1 : conf.LdapServer = "") (h2 : conf.LdapBindDN = "") (h3 : conf.LdapBindPassword = "")
    (h4 : conf.LdapSearchDN = "") (h5 : conf.LdapSearchFilter = "")
    (h6 : conf.LdapMappings = ⟨"", "", "", ""⟩)
    (ha : a = "yes" ∨ a = "y")
    (hs : ∀ l ∈ [srv, tls, bdn, bpw, sdn, sf, m1, m2, m3, m4], Spaceless l) :
    scanLdap conf
        ⟨typed (a :: srv :: tls :: bdn :: bpw :: sdn :: sf :: m1 :: m2 :: m3 :: m4 :: ls) rest,
          out⟩ =
      ({ conf with
          LdapEnable := true
          LdapServer := orDefault srv "localhost:389"
          LdapNeedTLS := decide (tls = "yes" ∨ tls = "y")
          LdapBindDN := orDefault bdn "cn=user,ou=users,dc=example"
          LdapBindPassword := orDefault bpw "pa55w0rd"
          LdapSearchDN := orDefault sdn "ou=users,dc=example"
          LdapSearchFilter := orDefault sf "(uid=%s)"
          LdapMappings := ⟨orDefault m1 "dn", orDefault m4 "mail", orDefault m2 "uid",
                            orDefault m3 "cn"⟩ },
        ⟨typed ls rest, out ++ [" > Enable LDAP authentication (y/n, default n): ",
          " > LDAP server host (default localhost:389): ",
          " > Enable LDAP TLS connection (y/n, default n): ",
          " > LDAP DN for bind (default cn=user,ou=users,dc=example): ",
          " > Password for LDAP bind user (default pa55w0rd): ",
          " > LDAP DN for user search (default ou=users,dc=example): ",
          " > LDAP search filter (default (uid=%s)): ",
          " > LDAP mapping for DN field (default dn): ",
          " > LDAP mapping for username field (default uid): ",
          " > LDAP mapping for full name field (default cn): ",
          " > LDAP mapping for email field (default mail): "]⟩) := by
  have hsa : Spaceless a := by rcases ha with h | h <;> subst h <;> decide
  have hne : a ≠ "" := by rcases ha with h | h <;> subst h <;> decide
  have q1 := hs srv (by simp)
  have q2 := hs tls (by simp)
  have q3 := hs bdn (by simp)
  have q4 := hs bpw (by simp)
  have q5 := hs sdn (by simp)
  have q6 := hs sf (by simp)
  have q7 := hs m1 (by simp)
  have q8 := hs m2 (by simp)
  have q9 := hs m3 (by simp)
  have q10 := hs m4 (by simp)
  simp only [scanLdap, Print, Console.scanned, Scanln_typed _ _ _ _ hsa, if_neg hne, if_pos ha]
  rw [scanLdapServer_typed _ srv tls _ rest _ ?_ q1 q2]
  simp only []
  rw [scanLdapBind_typed _ bdn bpw _ rest _ ?_ ?_ q3 q4]
  simp only []
  rw [scanLdapSearch_typed _ sdn sf _ rest _ ?_ ?_ q5 q6]
  simp only []
  rw [scanLdapMappingsDN_typed _ m1 m2 _ rest _ ?_ ?_ q7 q8]
  simp only []
  rw [scanLdapMappingsCN_typed _ m3 m4 _ rest _ ?_ ?_ q9 q10]
  simp [h6]
  all_goals simp [h1, h2, h3, h4, h5, h6]

theorem spaceless_empty : Spaceless "" := by decide

/-- Counterexample to C4: after nine empty lines the LDAP search filter is
empty, not `(uid=%s)`. -/
theorem empty_answers_leave_filter_empty :
    (Scan NewConfig ⟨typed (List.replicate 9 "") [], []⟩).2.stdin = [] ∧
    (Scan NewConfig ⟨typed (List.replicate 9 "") [], []⟩).1.LdapSearchFilter = "" ∧
    (Scan NewConfig ⟨typed (List.replicate 9 "") [], []⟩).1.LdapSearchFilter ≠ "(uid=%s)" := by
  decide

/-- C4, amended: from a fresh document, when every prompt is answered with an
empty line, the wizard reads nine lines and leaves the database host
`127.0.0.1:3306`, the database user `root`, the database name `semaphore`, the
work directory `/tmp/semaphore`, the email, telegram and LDAP sections off and
every other field, the LDAP search filter among them, empty. -/
theorem Scan_empty_answers (rest : List Char) (out : List String) :
    Scan NewConfig ⟨typed (List.replicate 9 "") rest, out⟩ =
      ({ NewConfig with
          MySQL := ⟨"127.0.0.1:3306", "root", "", "semaphore"⟩
          TmpPath := "/tmp/semaphore" },
        ⟨rest, out ++ [" > DB Hostname (default 127.0.0.1:3306): ",
          " > DB User (default root): ", " > DB Password: ",
          " > DB Name (default semaphore): ", " > Playbook path: ",
          " > Web root URL (optional, example http://localhost:8010/): ",
          " > Enable email alerts (y/n, default n): ",
          " > Enable telegram alerts (y/n, default n): ",
          " > Enable LDAP authentication (y/n, default n): "]⟩) ∧
    (Scan NewConfig ⟨typed (List.replicate 9 "") rest, out⟩).1.LdapEnable = false ∧
    (Scan NewConfig ⟨typed (List.replicate 9 "") rest, out⟩).1.LdapSearchFilter = "" := by
  have hc : Clean "/tmp/semaphore" = "/tmp/semaphore" := by decide
  have key : Scan NewConfig ⟨typed (List.replicate 9 "") rest, out⟩ =
      ({ NewConfig with
          MySQL := ⟨"127.0.0.1:3306", "root", "", "semaphore"⟩
          TmpPath := "/tmp/semaphore" },
        ⟨rest, out ++ [" > DB Hostname (default 127.0.0.1:3306): ",
          " > DB User (default root): ", " > DB Password: ",
          " > DB Name (default semaphore): ", " > Playbook path: ",
          " > Web root URL (optional, example http://localhost:8010/): ",
          " > Enable email alerts (y/n, default n): ",
          " > Enable telegram alerts (y/n, default n): ",
          " > Enable LDAP authentication (y/n, default n): "]⟩) := by
    simp only [Scan, scanBeforeLdap, List.replicate]
    rw [scanDatabase_typed NewConfig "" "" "" "" _ rest out rfl spaceless_empty spaceless_empty
      spaceless_empty spaceless_empty]
    simp only []
    rw [scanPaths_typed _ "" "" _ rest _ rfl rfl spaceless_empty spaceless_empty]
    simp only []
    rw [scanEmail_no _ "" _ rest _ spaceless_empty (by decide)]
    simp only []
    rw [scanTelegram_no _ "" _ rest _ spaceless_empty (by decide)]
    simp only []
    rw [scanLdap_no _ "" _ rest _ spaceless_empty (by decide)]
    simp [orDefault, hc, typed, NewConfig]
  rw [key]
  exact ⟨rfl, rfl, rfl⟩

/-! ## The LDAP section -/

theorem scanDatabase_ldapPart (conf : configType) (t : Console) :
    ldapPart (scanDatabase conf t).1 = ldapPart conf := by
  simp only [scanDatabase]
  split_ifs <;> rfl

theorem scanPaths_ldapPart (conf : configType) (t : Console) :
    ldapPart (scanPaths conf t).1 = ldapPart conf := by
  simp only [scanPaths]
  split_ifs <;> rfl

theorem scanEmail_ldapPart (conf : configType) (t : Console) :
    ldapPart (scanEmail conf t).1 = ldapPart conf := by
  simp only [scanEmail]
  split_ifs <;> rfl

theorem scanTelegram_ldapPart (conf : configType) (t : Console) :
    ldapPart (scanTelegram conf t).1 = ldapPart conf := by
  simp only [scanTelegram]
  split_ifs <;> rfl

theorem scanBeforeLdap_ldapPart (conf : configType) (t : Console) :
    ldapPart (scanBeforeLdap conf t).1 = ldapPart conf := by
  simp only [scanBeforeLdap]
  rw [scanTelegram_ldapPart, scanEmail_ldapPart, scanPaths_ldapPart, scanDatabase_ldapPart]

theorem scanLdapServer_enable (conf : configType) (t : Console) :
    (scanLdapServer conf t).1.LdapEnable = conf.LdapEnable := by
  simp only [scanLdapServer]
  split_ifs <;> rfl

theorem scanLdapBind_enable (conf : configType) (t : Console) :
    (scanLdapBind conf t).1.LdapEnable = conf.LdapEnable := by
  simp only [scanLdapBind]
  split_ifs <;> rfl

theorem scanLdapSearch_enable (conf : configType) (t : Console) :
    (scanLdapSearch conf t).1.LdapEnable = conf.LdapEnable := by
  simp only [scanLdapSearch]
  split_ifs <;> rfl

theorem scanLdapMappingsDN_enable (conf : configType) (t : Console) :
    (scanLdapMappingsDN conf t).1.LdapEnable = conf.LdapEnable := by
  simp only [scanLdapMappingsDN]
  split_ifs <;> rfl

theorem scanLdapMappingsCN_enable (conf : configType) (t : Console) :
    (scanLdapMappingsCN conf t).1.LdapEnable = conf.LdapEnable := by
  simp only [scanLdapMappingsCN]
  split_ifs <;> rfl

/-- The LDAP section on any input: it is entered exactly when the word read
by the question is `yes` or `y`; when it is not entered, the question is the
only prompt and only `LdapEnable` is written. -/
theorem scanLdap_answer (conf : configType) (t : Console) :
    ((Scanln "" t.stdin).v = "yes" ∨ (Scanln "" t.stdin).v = "y" →
      (scanLdap conf t).1.LdapEnable = true) ∧
    (¬ ((Scanln "" t.stdin).v = "yes" ∨ (Scanln "" t.stdin).v = "y") →
      scanLdap conf t =
        ({ conf with LdapEnable := false },
          ⟨(Scanln "" t.stdin).stdin,
            t.stdout ++ [" > Enable LDAP authentication (y/n, default n): "]⟩)) := by
  constructor
  · intro h
    simp only [scanLdap, Print, Console.scanned, if_pos h]
    rw [scanLdapMappingsCN_enable, scanLdapMappingsDN_enable, scanLdapSearch_enable,
      scanLdapBind_enable, scanLdapServer_enable]
  · intro h
    simp only [scanLdap, Print, Console.scanned, if_neg h]

theorem firstWord_yes_iff (line : List Char) :
    ((if firstWord line = [] then "" else String.mk (firstWord line)) = "yes" ∨
      (if firstWord line = [] then "" else String.mk (firstWord line)) = "y") ↔
    (firstWord line = "yes".data ∨ firstWord line = "y".data) := by
  by_cases h : firstWord line = []
  · simp [h]
  · simp only [if_neg h]
    constructor
    · rintro (h1 | h1)
      · left; exact congrArg String.data h1
      · right; exact congrArg String.data h1
    · rintro (h1 | h1)
      · left; rw [h1]
      · right; rw [h1]

theorem scanLdap_yes_empty (c : configType) (t : Console) (a : String) (rest : List Char)
    (hc : ldapPart c = ldapPart NewConfig) (ha : a = "yes" ∨ a = "y")
    (hin : t.stdin = typed (a :: List.replicate 10 "") rest) :
    ldapPart (scanLdap c t).1 =
        (true, "cn=user,ou=users,dc=example", "pa55w0rd", "localhost:389", false,
          "ou=users,dc=example", "(uid=%s)", ⟨"dn", "mail", "uid", "cn"⟩) ∧
      (scanLdap c t).2.stdin = rest := by
  obtain ⟨stdin, stdout⟩ := t
  simp only at hin
  subst hin
  simp only [ldapPart, NewConfig, Prod.mk.injEq] at hc
  obtain ⟨-, h2, h3, h1, -, h4, h5, h6⟩ := hc
  have hs : ∀ l ∈ ["", "", "", "", "", "", "", "", "", ""], Spaceless l := by
    intro l hl
    simp only [List.mem_cons, List.mem_singleton, List.not_mem_nil, or_false, or_self] at hl
    subst hl
    decide
  simp only [List.replicate]
  rw [scanLdap_yes c a "" "" "" "" "" "" "" "" "" "" [] rest stdout h1 h2 h3 h4 h5 h6 ha hs]
  simp [ldapPart, orDefault, typed]

/-- Counterexample to C5: the answer ` y`, with a leading blank, is neither
`y` nor `yes`, and it enables LDAP; so does the answer `y no`. -/
theorem padded_answer_enables_ldap :
    (Scan NewConfig ⟨typed ["", "", "", "", "", "", "", "", " y"] [], []⟩).1.LdapEnable = true ∧
    " y" ≠ "y" ∧ " y" ≠ "yes" ∧
    (Scan NewConfig ⟨typed ["", "", "", "", "", "", "", "", "y no"] [], []⟩).1.LdapEnable
      = true ∧
    "y no" ≠ "y" ∧ "y no" ≠ "yes" := by
  decide

theorem scanLdap_section (c : configType) (t : Console) (line rest : List Char)
    (hc : ldapPart c = ldapPart NewConfig)
    (hin : t.stdin = line ++ '\n' :: rest) (hline : '\n' ∉ line) :
    ((scanLdap c t).1.LdapEnable = true ↔
        firstWord line = "y".data ∨ firstWord line = "yes".data) ∧
    ((line = "y".data ∨ line = "yes".data) →
        ∀ rest2, rest = typed (List.replicate 10 "") rest2 →
        ldapPart (scanLdap c t).1 =
          (true, "cn=user,ou=users,dc=example", "pa55w0rd", "localhost:389", false,
            "ou=users,dc=example", "(uid=%s)", ⟨"dn", "mail", "uid", "cn"⟩) ∧
        (scanLdap c t).2.stdin = rest2) ∧
    ((scanLdap c t).1.LdapEnable = false →
        ldapPart (scanLdap c t).1 = (false, "", "", "", false, "", "", ⟨"", "", "", ""⟩) ∧
        (scanLdap c t).2.stdout = t.stdout ++
          [" > Enable LDAP authentication (y/n, default n): "] ∧
        (scanLdap c t).2.stdin = (Scanln "" (line ++ '\n' :: rest)).stdin) := by
  obtain ⟨hyes, hno⟩ := scanLdap_answer c t
  have hv := Scanln_line "" line rest hline
  rw [← hin] at hv
  have hiff := firstWord_yes_iff line
  rw [← hv] at hiff
  refine ⟨?_, ?_, ?_⟩
  · constructor
    · intro he
      by_cases hE : (Scanln "" t.stdin).v = "yes" ∨ (Scanln "" t.stdin).v = "y"
      · exact (hiff.mp hE).symm
      · rw [hno hE] at he
        exact absurd he (by simp)
    · intro hw
      exact hyes (hiff.mpr hw.symm)
  · intro hl rest2 hrest
    have ha : ∃ a : String, (a = "yes" ∨ a = "y") ∧ line = a.data := by
      rcases hl with h | h
      · exact ⟨"y", Or.inr rfl, h⟩
      · exact ⟨"yes", Or.inl rfl, h⟩
    obtain ⟨a, ha, hla⟩ := ha
    refine scanLdap_yes_empty _ _ a rest2 hc ha ?_
    rw [hin, hla, hrest]
    rfl
  · intro he
    have hE : ¬ ((Scanln "" t.stdin).v = "yes" ∨ (Scanln "" t.stdin).v = "y") := by
      intro hE
      rw [hyes hE] at he
      exact absurd he (by simp)
    rw [hno hE]
    refine ⟨?_, rfl, by rw [hin]⟩
    simp only [ldapPart, NewConfig, Prod.mk.injEq] at hc ⊢
    obtain ⟨-, h2, h3, h1, h7, h4, h5, h6⟩ := hc
    exact ⟨trivial, h2, h3, h1, h7, h4, h5, h6⟩

/-- C5, amended: from a fresh document, when the line typed at the LDAP
question is `line`, LDAP is enabled exactly when the first word of the line is
`y` or `yes`; when the line is `y` or `yes` and the ten LDAP prompts that
follow get empty lines, the LDAP settings are the documented defaults and
those lines are used up; when LDAP is not enabled every LDAP setting is as in a
fresh document, the question is the last prompt printed and nothing is read
after its answer. -/
theorem Scan_ldap_section (t : Console) (line rest : List Char)
    (hin : (scanBeforeLdap NewConfig t).2.stdin = line ++ '\n' :: rest)
    (hline : '\n' ∉ line) :
    ((Scan NewConfig t).1.LdapEnable = true ↔
        firstWord line = "y".data ∨ firstWord line = "yes".data) ∧
    ((line = "y".data ∨ line = "yes".data) →
        ∀ rest2, rest = typed (List.replicate 10 "") rest2 →
        ldapPart (Scan NewConfig t).1 =
          (true, "cn=user,ou=users,dc=example", "pa55w0rd", "localhost:389", false,
            "ou=users,dc=example", "(uid=%s)", ⟨"dn", "mail", "uid", "cn"⟩) ∧
        (Scan NewConfig t).2.stdin = rest2) ∧
    ((Scan NewConfig t).1.LdapEnable = false →
        ldapPart (Scan NewConfig t).1 = (false, "", "", "", false, "", "", ⟨"", "", "", ""⟩) ∧
        (Scan NewConfig t).2.stdout = (scanBeforeLdap NewConfig t).2.stdout ++
          [" > Enable LDAP authentication (y/n, default n): "] ∧
        (Scan NewConfig t).2.stdin = (Scanln "" (line ++ '\n' :: rest)).stdin) := by
  have hS : Scan NewConfig t =
      scanLdap (scanBeforeLdap NewConfig t).1 (scanBeforeLdap NewConfig t).2 := by
    simp only [Scan]
  rw [hS]
  exact scanLdap_section (scanBeforeLdap NewConfig t).1 (scanBeforeLdap NewConfig t).2 line rest
    (scanBeforeLdap_ldapPart NewConfig t) hin hline

/-- Witness of C5, amended: the answer `y` after eight empty lines, followed by
ten empty lines. -/
theorem Scan_ldap_section_witness :
    (Scan NewConfig ⟨typed ("" :: "" :: "" :: "" :: "" :: "" :: "" :: "" :: "y" ::
        List.replicate 10 "") [], []⟩).1.LdapEnable = true ↔
      firstWord "y".data = "y".data ∨ firstWord "y".data = "yes".data :=
  (Scan_ldap_section ⟨typed ("" :: "" :: "" :: "" :: "" :: "" :: "" :: "" :: "y" ::
      List.replicate 10 "") [], []⟩ "y".data (typed (List.replicate 10 "") [])
    (by decide) (by decide)).1

/-! ## Lines with and without white space -/

/-- Counterexample to C6: the bind DN `cn=John Doe,ou=users,dc=example` is cut
at the blank, and what follows the `D` is taken as the answer to the next
prompt, whose own answer `secret` moves on to the search DN. -/
theorem bind_dn_with_blank_is_split :
    (Scan NewConfig ⟨typed ["", "", "", "", "", "", "", "", "y", "", "",
        "cn=John Doe,ou=users,dc=example", "secret", "", "", "", "", "", ""] [],
        []⟩).1.LdapBindDN = "cn=John" ∧
    (Scan NewConfig ⟨typed ["", "", "", "", "", "", "", "", "y", "", "",
        "cn=John Doe,ou=users,dc=example", "secret", "", "", "", "", "", ""] [],
        []⟩).1.LdapBindPassword = "oe,ou=users,dc=example" ∧
    (Scan NewConfig ⟨typed ["", "", "", "", "", "", "", "", "y", "", "",
        "cn=John Doe,ou=users,dc=example", "secret", "", "", "", "", "", ""] [],
        []⟩).1.LdapSearchDN = "secret" := by
  decide

/-! ## `encoding/base64`: bit arithmetic -/

namespace base64

theorem or_low (x y k : Nat) (h : y < 2 ^ k) : 2 ^ k * x ||| y = 2 ^ k * x + y :=
  (Nat.mul_add_lt_is_or h x).symm

theorem and_63 (x : Nat) : x &&& 0x3F = x % 64 := Nat.and_pow_two_sub_one_eq_mod x 6

theorem or3 (a b c : Nat) (hb : b < 256) (hc : c < 256) :
    a <<< 16 ||| b <<< 8 ||| c = a * 65536 + b * 256 + c := by
  simp only [Nat.shiftLeft_eq]
  have h1 : a * 2 ^ 16 ||| b * 2 ^ 8 = a * 2 ^ 16 + b * 2 ^ 8 := by
    have := or_low a (b * 2 ^ 8) 16 (by omega)
    rw [Nat.mul_comm] at this
    exact this
  rw [h1]
  have h2 : a * 2 ^ 16 + b * 2 ^ 8 = 2 ^ 8 * (a * 256 + b) := by omega
  rw [h2, or_low _ c 8 (by omega)]
  omega

theorem or4 (s0 s1 s2 s3 : Nat) (h1 : s1 < 64) (h2 : s2 < 64) (h3 : s3 < 64) :
    s0 <<< 18 ||| s1 <<< 12 ||| s2 <<< 6 ||| s3 =
      s0 * 262144 + s1 * 4096 + s2 * 64 + s3 := by
  simp only [Nat.shiftLeft_eq]
  have e1 : s0 * 2 ^ 18 = 2 ^ 18 * s0 := by omega
  rw [e1, or_low s0 (s1 * 2 ^ 12) 18 (by omega)]
  have e2 : 2 ^ 18 * s0 + s1 * 2 ^ 12 = 2 ^ 12 * (s0 * 64 + s1) := by omega
  rw [e2, or_low _ (s2 * 2 ^ 6) 12 (by omega)]
  have e3 : 2 ^ 12 * (s0 * 64 + s1) + s2 * 2 ^ 6 = 2 ^ 6 * (s0 * 4096 + s1 * 64 + s2) := by omega
  rw [e3, or_low _ s3 6 (by omega)]
  omega

theorem or_lt_64 (x y : Nat) (hx : x < 64) (hy : y < 64) : x ||| y < 64 :=
  @Nat.or_lt_two_pow x y 6 hx hy

theorem decodeMap_encode : ∀ i, i < 64 → decodeMap (encode i) = i := by decide

theorem decodeMap_cases (c : Nat) : decodeMap c < 64 ∨ decodeMap c = 0xFF := by
  unfold decodeMap
  simp only
  split
  · left; assumption
  · right; rfl

theorem decodeMap_pad : decodeMap padChar = 0xFF := by decide

theorem or_255 (x : Nat) (hx : x < 64 ∨ x = 0xFF) : x ||| 0xFF = 0xFF := by
  rcases hx with h | h
  · have : ∀ x, x < 64 → x ||| 0xFF = 0xFF := by decide
    exact this x h
  · subst h; decide

theorem or_255_left (x : Nat) (hx : x < 64 ∨ x = 0xFF) : 0xFF ||| x = 0xFF := by
  rw [Nat.lor_comm]; exact or_255 x hx

/-- The test of `assemble32`: the bitwise or of four table values is `0xFF`
exactly when one of them is. -/
theorem or4_eq_255 (n1 n2 n3 n4 : Nat)
    (h1 : n1 < 64 ∨ n1 = 0xFF) (h2 : n2 < 64 ∨ n2 = 0xFF)
    (h3 : n3 < 64 ∨ n3 = 0xFF) (h4 : n4 < 64 ∨ n4 = 0xFF) :
    n1 ||| n2 ||| n3 ||| n4 = 0xFF ↔ (n1 = 0xFF ∨ n2 = 0xFF ∨ n3 = 0xFF ∨ n4 = 0xFF) := by
  constructor
  · intro h
    by_contra hc
    simp only [not_or] at hc
    have a1 : n1 < 64 := h1.resolve_right hc.1
    have a2 : n2 < 64 := h2.resolve_right hc.2.1
    have a3 : n3 < 64 := h3.resolve_right hc.2.2.1
    have a4 : n4 < 64 := h4.resolve_right hc.2.2.2
    have := or_lt_64 _ _ (or_lt_64 _ _ (or_lt_64 _ _ a1 a2) a3) a4
    omega
  · have q12 : n1 ||| n2 < 64 ∨ n1 ||| n2 = 0xFF := by
      rcases h1 with a | a
      · rcases h2 with b | b
        · left; exact or_lt_64 _ _ a b
        · right; rw [b]; exact or_255 _ (Or.inl a)
      · right; rw [a]; exact or_255_left _ h2
    have q123 : n1 ||| n2 ||| n3 < 64 ∨ n1 ||| n2 ||| n3 = 0xFF := by
      rcases q12 with a | a
      · rcases h3 with b | b
        · left; exact or_lt_64 _ _ a b
        · right; rw [b]; exact or_255 _ (Or.inl a)
      · right; rw [a]; exact or_255_left _ h3
    rintro (h | h | h | h)
    · rw [h, or_255_left _ h2, or_255_left _ h3, or_255_left _ h4]
    · rw [h, or_255 _ h1, or_255_left _ h3, or_255_left _ h4]
    · rw [h, or_255 _ q12, or_255_left _ h4]
    · rw [h, or_255 _ q123]

theorem asm32 (s0 s1 s2 s3 : Nat) (h1 : s1 < 64) (h2 : s2 < 64) (h3 : s3 < 64) :
    s0 <<< 26 ||| s1 <<< 20 ||| s2 <<< 14 ||| s3 <<< 8 =
      (s0 * 262144 + s1 * 4096 + s2 * 64 + s3) * 256 := by
  simp only [Nat.shiftLeft_eq]
  have e1 : s0 * 2 ^ 26 = 2 ^ 26 * s0 := by omega
  rw [e1, or_low s0 (s1 * 2 ^ 20) 26 (by omega)]
  have e2 : 2 ^ 26 * s0 + s1 * 2 ^ 20 = 2 ^ 20 * (s0 * 64 + s1) := by omega
  rw [e2, or_low _ (s2 * 2 ^ 14) 20 (by omega)]
  have e3 : 2 ^ 20 * (s0 * 64 + s1) + s2 * 2 ^ 14 = 2 ^ 14 * (s0 * 4096 + s1 * 64 + s2) := by
    omega
  rw [e3, or_low _ (s3 * 2 ^ 8) 14 (by omega)]
  omega

theorem quantumBytes_four (s0 s1 s2 s3 : Nat) (h1 : s1 < 64) (h2 : s2 < 64) (h3 : s3 < 64) :
    quantumBytes [s0, s1, s2, s3] 4 =
      [(s0 * 262144 + s1 * 4096 + s2 * 64 + s3) / 65536 % 256,
       (s0 * 262144 + s1 * 4096 + s2 * 64 + s3) / 256 % 256,
       (s0 * 262144 + s1 * 4096 + s2 * 64 + s3) % 256] := by
  have e := or4 s0 s1 s2 s3 h1 h2 h3
  unfold quantumBytes
  simp only [List.getD_cons_zero, List.getD_cons_succ]
  rw [e]
  simp [Nat.shiftRight_eq_div_pow]

/-- The bytes the four-symbol fast path keeps are those of `decodeQuantum`. -/
theorem bytes32_eq (s0 s1 s2 s3 : Nat) (h1 : s1 < 64) (h2 : s2 < 64)
    (h3 : s3 < 64) :
    bytes32 (s0 <<< 26 ||| s1 <<< 20 ||| s2 <<< 14 ||| s3 <<< 8) =
      quantumBytes [s0, s1, s2, s3] 4 := by
  rw [quantumBytes_four s0 s1 s2 s3 h1 h2 h3, asm32 s0 s1 s2 s3 h1 h2 h3]
  simp only [bytes32, Nat.shiftRight_eq_div_pow, List.cons.injEq, and_true]
  refine ⟨?_, ?_, ?_⟩ <;> omega

theorem or_table (x y : Nat) (hx : x < 64 ∨ x = 0xFF) (hy : y < 64 ∨ y = 0xFF) :
    (x ||| y < 64 ∨ x ||| y = 0xFF) ∧ (x ||| y = 0xFF ↔ x = 0xFF ∨ y = 0xFF) := by
  rcases hx with a | a
  · rcases hy with b | b
    · have := or_lt_64 _ _ a b
      exact ⟨Or.inl this, ⟨fun h => by omega, fun h => by omega⟩⟩
    · rw [b, or_255 _ (Or.inl a)]
      exact ⟨Or.inr rfl, ⟨fun _ => Or.inr rfl, fun _ => rfl⟩⟩
  · rw [a, or_255_left _ hy]
    exact ⟨Or.inr rfl, ⟨fun _ => Or.inl rfl, fun _ => rfl⟩⟩

/-- The test of `assemble64`. -/
theorem or8_eq_255 (n1 n2 n3 n4 n5 n6 n7 n8 : Nat)
    (h1 : n1 < 64 ∨ n1 = 0xFF) (h2 : n2 < 64 ∨ n2 = 0xFF)
    (h3 : n3 < 64 ∨ n3 = 0xFF) (h4 : n4 < 64 ∨ n4 = 0xFF)
    (h5 : n5 < 64 ∨ n5 = 0xFF) (h6 : n6 < 64 ∨ n6 = 0xFF)
    (h7 : n7 < 64 ∨ n7 = 0xFF) (h8 : n8 < 64 ∨ n8 = 0xFF) :
    n1 ||| n2 ||| n3 ||| n4 ||| n5 ||| n6 ||| n7 ||| n8 = 0xFF ↔
      (n1 = 0xFF ∨ n2 = 0xFF ∨ n3 = 0xFF ∨ n4 = 0xFF) ∨
      (n5 = 0xFF ∨ n6 = 0xFF ∨ n7 = 0xFF ∨ n8 = 0xFF) := by
  have q2 := or_table n1 n2 h1 h2
  have q3 := or_table _ n3 q2.1 h3
  have q4 := or_table _ n4 q3.1 h4
  have q5 := or_table _ n5 q4.1 h5
  have q6 := or_table _ n6 q5.1 h6
  have q7 := or_table _ n7 q6.1 h7
  have q8 := or_table _ n8 q7.1 h8
  rw [q8.2, q7.2, q6.2, q5.2, q4.2, q3.2, q2.2]
  simp only [or_assoc]

theorem asm64 (s0 s1 s2 s3 s4 s5 s6 s7 : Nat) (h1 : s1 < 64) (h2 : s2 < 64) (h3 : s3 < 64)
    (h4 : s4 < 64) (h5 : s5 < 64) (h6 : s6 < 64) (h7 : s7 < 64) :
    s0 <<< 58 ||| s1 <<< 52 ||| s2 <<< 46 ||| s3 <<< 40 ||| s4 <<< 34 ||| s5 <<< 28 |||
        s6 <<< 22 ||| s7 <<< 16 =
      ((s0 * 262144 + s1 * 4096 + s2 * 64 + s3) * 16777216 +
        (s4 * 262144 + s5 * 4096 + s6 * 64 + s7)) * 65536 := by
  simp only [Nat.shiftLeft_eq]
  have e1 : s0 * 2 ^ 58 = 2 ^ 58 * s0 := by omega
  rw [e1, or_low s0 (s1 * 2 ^ 52) 58 (by omega)]
  have e2 : 2 ^ 58 * s0 + s1 * 2 ^ 52 = 2 ^ 52 * (s0 * 64 + s1) := by omega
  rw [e2, or_low _ (s2 * 2 ^ 46) 52 (by omega)]
  have e3 : 2 ^ 52 * (s0 * 64 + s1) + s2 * 2 ^ 46 = 2 ^ 46 * (s0 * 4096 + s1 * 64 + s2) := by
    omega
  rw [e3, or_low _ (s3 * 2 ^ 40) 46 (by omega)]
  have e4 : 2 ^ 46 * (s0 * 4096 + s1 * 64 + s2) + s3 * 2 ^ 40 =
      2 ^ 40 * (s0 * 262144 + s1 * 4096 + s2 * 64 + s3) := by omega
  rw [e4, or_low _ (s4 * 2 ^ 34) 40 (by omega)]
  have e5 : 2 ^ 40 * (s0 * 262144 + s1 * 4096 + s2 * 64 + s3) + s4 * 2 ^ 34 =
      2 ^ 34 * ((s0 * 262144 + s1 * 4096 + s2 * 64 + s3) * 64 + s4) := by omega
  rw [e5, or_low _ (s5 * 2 ^ 28) 34 (by omega)]
  have e6 : 2 ^ 34 * ((s0 * 262144 + s1 * 4096 + s2 * 64 + s3) * 64 + s4) + s5 * 2 ^ 28 =
      2 ^ 28 * ((s0 * 262144 + s1 * 4096 + s2 * 64 + s3) * 4096 + s4 * 64 + s5) := by omega
  rw [e6, or_low _ (s6 * 2 ^ 22) 28 (by omega)]
  have e7 : 2 ^ 28 * ((s0 * 262144 + s1 * 4096 + s2 * 64 + s3) * 4096 + s4 * 64 + s5) +
      s6 * 2 ^ 22 =
      2 ^ 22 * ((s0 * 262144 + s1 * 4096 + s2 * 64 + s3) * 262144 + s4 * 4096 + s5 * 64 + s6) := by
    omega
  rw [e7, or_low _ (s7 * 2 ^ 16) 22 (by omega)]
  omega

/-- The bytes the eight-symbol fast path keeps are those of two calls of
`decodeQuantum`. -/
theorem bytes64_eq (s0 s1 s2 s3 s4 s5 s6 s7 : Nat) (h1 : s1 < 64) (h2 : s2 < 64)
    (h3 : s3 < 64) (h4 : s4 < 64) (h5 : s5 < 64) (h6 : s6 < 64) (h7 : s7 < 64) :
    bytes64 (s0 <<< 58 ||| s1 <<< 52 ||| s2 <<< 46 ||| s3 <<< 40 ||| s4 <<< 34 ||| s5 <<< 28 |||
        s6 <<< 22 ||| s7 <<< 16) =
      quantumBytes [s0, s1, s2, s3] 4 ++ quantumBytes [s4, s5, s6, s7] 4 := by
  rw [quantumBytes_four s0 s1 s2 s3 h1 h2 h3, quantumBytes_four s4 s5 s6 s7 h5 h6 h7,
    asm64 s0 s1 s2 s3 s4 s5 s6 s7 h1 h2 h3 h4 h5 h6 h7]
  simp only [bytes64, Nat.shiftRight_eq_div_pow, List.cons_append, List.nil_append,
    List.cons.injEq, and_true]
  refine ⟨?_, ?_, ?_, ?_, ?_, ?_⟩ <;> omega

/-! ## `encoding/base64`: the loops of `Decode` -/

theorem skipNewlines_length (l : List Nat) (si : Nat) :
    (skipNewlines l si).1.length ≤ l.length := by
  induction l generalizing si with
  | nil => simp [skipNewlines]
  | cons c l ih =>
    simp only [skipNewlines]
    split
    · exact Nat.le_succ_of_le (ih _)
    · exact Nat.le_refl _

/-- Every call of `decodeQuantum` on input that is not used up reads at least
one byte. -/
theorem decodeQuantumLoop_length (total : Nat) (src : List Nat) (si j : Nat) (dbuf : List Nat)
    (hsrc : src ≠ []) :
    (decodeQuantumLoop total src si j dbuf).rest.length < src.length := by
  induction src generalizing si j dbuf with
  | nil => exact absurd rfl hsrc
  | cons c rest ih =>
    have hrest : ∀ si j dbuf, (decodeQuantumLoop total rest si j dbuf).rest.length
        < (c :: rest).length := by
      intro si j dbuf
      cases rest with
      | nil => simp only [decodeQuantumLoop]; split <;> simp
      | cons c2 r2 =>
        exact Nat.lt_succ_of_lt (ih si j dbuf (by simp))
    simp only [decodeQuantumLoop]
    by_cases h1 : decodeMap c ≠ 0xFF
    · rw [if_pos h1]
      by_cases h2 : j + 1 < 4
      · rw [if_pos h2]; exact hrest _ _ _
      · rw [if_neg h2]; simp
    · rw [if_neg h1]
      by_cases h2 : c = 10 ∨ c = 13
      · rw [if_pos h2]; exact hrest _ _ _
      · rw [if_neg h2]
        by_cases h3 : c ≠ padChar
        · rw [if_pos h3]; simp
        · rw [if_neg h3]
          have hs1 := skipNewlines_length rest (si + 1)
          rcases j with _ | _ | _ | j
          · simp
          · simp
          · simp only []
            rcases hsk : skipNewlines rest (si + 1) with ⟨l, s⟩
            rw [hsk] at hs1
            cases l with
            | nil => simp
            | cons c2 rest2 =>
              simp only []
              simp only [List.length_cons] at hs1
              by_cases h4 : c2 ≠ padChar
              · rw [if_pos h4]; simp only [List.length_cons]; omega
              · rw [if_neg h4]
                have hs2 := skipNewlines_length rest2 (s + 1)
                simp only [List.length_cons]
                omega
          · simp only []
            simp only [List.length_cons]
            omega

theorem decodeQuantum_length (total : Nat) (src : List Nat) (si : Nat) (hsrc : src ≠ []) :
    (decodeQuantum total src si).rest.length < src.length :=
  decodeQuantumLoop_length total src si 0 [] hsrc

/-- A call of `decodeQuantum` on four symbols of the alphabet. -/
theorem decodeQuantum_four (total c1 c2 c3 c4 : Nat) (rest : List Nat) (si : Nat)
    (h1 : decodeMap c1 ≠ 0xFF) (h2 : decodeMap c2 ≠ 0xFF) (h3 : decodeMap c3 ≠ 0xFF)
    (h4 : decodeMap c4 ≠ 0xFF) :
    decodeQuantum total (c1 :: c2 :: c3 :: c4 :: rest) si =
      ⟨rest, si + 4,
        quantumBytes [decodeMap c1, decodeMap c2, decodeMap c3, decodeMap c4] 4, none⟩ := by
  simp [decodeQuantum, decodeQuantumLoop, h1, h2, h3, h4]

/-- The fuel of the last loop does not matter once it covers the input. -/
theorem decodeTail_fuel (total : Nat) (f g : Nat) (src : List Nat) (si : Nat) (out : List Nat)
    (hf : src.length ≤ f) (hg : src.length ≤ g) :
    decodeTail f total src si out = decodeTail g total src si out := by
  induction f generalizing g src si out with
  | zero =>
    have : src = [] := List.length_eq_zero.mp (Nat.le_zero.mp hf)
    subst this
    cases g <;> simp [decodeTail]
  | succ f ih =>
    cases g with
    | zero =>
      have : src = [] := List.length_eq_zero.mp (Nat.le_zero.mp hg)
      subst this
      simp [decodeTail]
    | succ g =>
      simp only [decodeTail]
      by_cases hsrc : src ≠ []
      · rw [if_pos hsrc, if_pos hsrc]
        have hl := decodeQuantum_length total src si hsrc
        cases herr : (decodeQuantum total src si).err with
        | some e => rfl
        | none =>
          simp only []
          exact ih g _ _ _ (by omega) (by omega)
      · rw [if_neg hsrc, if_neg hsrc]

theorem decodeTail_four (total f c1 c2 c3 c4 : Nat) (rest : List Nat) (si : Nat)
    (out : List Nat)
    (h1 : decodeMap c1 ≠ 0xFF) (h2 : decodeMap c2 ≠ 0xFF) (h3 : decodeMap c3 ≠ 0xFF)
    (h4 : decodeMap c4 ≠ 0xFF) :
    decodeTail (f + 1) total (c1 :: c2 :: c3 :: c4 :: rest) si out =
      decodeTail f total rest (si + 4)
        (out ++ quantumBytes [decodeMap c1, decodeMap c2, decodeMap c3, decodeMap c4] 4) := by
  simp only [decodeTail, if_pos (List.cons_ne_nil _ _),
    decodeQuantum_four total c1 c2 c3 c4 rest si h1 h2 h3 h4]

/-- The four-symbol loop computes what the last loop computes. -/
theorem decode32_eq_decodeTail (total dlen : Nat) (f : Nat) (src : List Nat) (si : Nat)
    (out : List Nat) (hf : src.length ≤ f) :
    decode32 f total dlen src si out = decodeTail f total src si out := by
  induction f generalizing src si out with
  | zero => simp [decode32, decodeTail]
  | succ f ih =>
    rcases src with _ | ⟨c1, _ | ⟨c2, _ | ⟨c3, _ | ⟨c4, rest⟩⟩⟩⟩
    · simp [decode32]
    · simp [decode32]
    · simp [decode32]
    · simp [decode32]
    · simp only [decode32]
      by_cases hd : 4 ≤ dlen - out.length
      · rw [if_pos hd]
        have t1 := decodeMap_cases c1
        have t2 := decodeMap_cases c2
        have t3 := decodeMap_cases c3
        have t4 := decodeMap_cases c4
        have hor := or4_eq_255 _ _ _ _ t1 t2 t3 t4
        by_cases hff : decodeMap c1 ||| decodeMap c2 ||| decodeMap c3 ||| decodeMap c4 = 0xFF
        · simp only [assemble32, if_pos hff]
          simp only [decodeTail, if_pos (List.cons_ne_nil _ _)]
          have hl := decodeQuantum_length total (c1 :: c2 :: c3 :: c4 :: rest) si
            (List.cons_ne_nil _ _)
          cases herr : (decodeQuantum total (c1 :: c2 :: c3 :: c4 :: rest) si).err with
          | some e => rfl
          | none =>
            simp only []
            exact ih _ _ _ (by simp only [List.length_cons] at hl hf; omega)
        · simp only [assemble32, if_neg hff]
          have hn : ¬ (decodeMap c1 = 0xFF ∨ decodeMap c2 = 0xFF ∨ decodeMap c3 = 0xFF ∨
              decodeMap c4 = 0xFF) := fun h => hff (hor.mpr h)
          simp only [not_or] at hn
          obtain ⟨n1, n2, n3, n4⟩ := hn
          rw [ih _ _ _ (by simp only [List.length_cons] at hf; omega)]
          rw [decodeTail_four total f c1 c2 c3 c4 rest si out n1 n2 n3 n4]
          rw [bytes32_eq _ _ _ _ (t2.resolve_right n2) (t3.resolve_right n3)
            (t4.resolve_right n4)]
      · rw [if_neg hd]

/-- The eight-symbol loop computes what the last loop computes. -/
theorem decode64_eq_decodeTail (total dlen : Nat) (f : Nat) (src : List Nat) (si : Nat)
    (out : List Nat) (hf : src.length ≤ f) :
    decode64 f total dlen src si out = decodeTail f total src si out := by
  induction f generalizing src si out with
  | zero => simp [decode64, decodeTail]
  | succ f ih =>
    have h32 := decode32_eq_decodeTail total dlen (f + 1) src si out hf
    rcases src with _ | ⟨c1, _ | ⟨c2, _ | ⟨c3, _ | ⟨c4, _ | ⟨c5, _ | ⟨c6, _ | ⟨c7, _ | ⟨c8, rest⟩⟩⟩⟩⟩⟩⟩⟩
    · simp only [decode64]; exact h32
    · simp only [decode64]; exact h32
    · simp only [decode64]; exact h32
    · simp only [decode64]; exact h32
    · simp only [decode64]; exact h32
    · simp only [decode64]; exact h32
    · simp only [decode64]; exact h32
    · simp only [decode64]; exact h32
    · simp only [decode64]
      by_cases hd : 8 ≤ dlen - out.length
      · rw [if_pos hd]
        have t1 := decodeMap_cases c1
        have t2 := decodeMap_cases c2
        have t3 := decodeMap_cases c3
        have t4 := decodeMap_cases c4
        have t5 := decodeMap_cases c5
        have t6 := decodeMap_cases c6
        have t7 := decodeMap_cases c7
        have t8 := decodeMap_cases c8
        have hor := or8_eq_255 _ _ _ _ _ _ _ _ t1 t2 t3 t4 t5 t6 t7 t8
        by_cases hff : decodeMap c1 ||| decodeMap c2 ||| decodeMap c3 ||| decodeMap c4 |||
            decodeMap c5 ||| decodeMap c6 ||| decodeMap c7 ||| decodeMap c8 = 0xFF
        · simp only [assemble64, if_pos hff]
          simp only [decodeTail, if_pos (List.cons_ne_nil _ _)]
          have hl := decodeQuantum_length total
            (c1 :: c2 :: c3 :: c4 :: c5 :: c6 :: c7 :: c8 :: rest) si (List.cons_ne_nil _ _)
          cases herr : (decodeQuantum total
              (c1 :: c2 :: c3 :: c4 :: c5 :: c6 :: c7 :: c8 :: rest) si).err with
          | some e => rfl
          | none =>
            simp only []
            exact ih _ _ _ (by simp only [List.length_cons] at hl hf; omega)
        · simp only [assemble64, if_neg hff]
          have hn : ¬ ((decodeMap c1 = 0xFF ∨ decodeMap c2 = 0xFF ∨ decodeMap c3 = 0xFF ∨
              decodeMap c4 = 0xFF) ∨ (decodeMap c5 = 0xFF ∨ decodeMap c6 = 0xFF ∨
              decodeMap c7 = 0xFF ∨ decodeMap c8 = 0xFF)) := fun h => hff (hor.mpr h)
          simp only [not_or] at hn
          obtain ⟨⟨n1, n2, n3, n4⟩, n5, n6, n7, n8⟩ := hn
          rw [ih _ _ _ (by simp only [List.length_cons] at hf; omega)]
          obtain ⟨f2, rfl⟩ : ∃ f2, f = f2 + 1 := by
            simp only [List.length_cons] at hf
            exact ⟨f - 1, by omega⟩
          rw [decodeTail_four total (f2 + 1) c1 c2 c3 c4 _ si out n1 n2 n3 n4,
            decodeTail_four total f2 c5 c6 c7 c8 rest (si + 4) _ n5 n6 n7 n8]
          rw [bytes64_eq _ _ _ _ _ _ _ _ (t2.resolve_right n2) (t3.resolve_right n3)
            (t4.resolve_right n4) (t5.resolve_right n5) (t6.resolve_right n6)
            (t7.resolve_right n7) (t8.resolve_right n8), List.append_assoc]
          exact decodeTail_fuel total (f2 + 1) f2 rest _ _
            (by simp only [List.length_cons] at hf; omega)
            (by simp only [List.length_cons] at hf; omega)
      · rw [if_neg hd]; exact h32

/-- The function `Decode` computes what its last loop alone computes. -/
theorem Decode_eq_decodeTail (dlen : Nat) (src : List Nat) :
    Decode dlen src = decodeTail src.length src.length src 0 [] := by
  unfold Decode
  by_cases h : src.length = 0
  · rw [if_pos h, h]
    have : src = [] := List.length_eq_zero.mp h
    subst this
    rfl
  · rw [if_neg h, decode64_eq_decodeTail _ _ _ _ _ _ (Nat.le_succ _)]
    exact decodeTail_fuel _ _ _ _ _ _ (Nat.le_succ _) (Nat.le_refl _)

/-! ## `encoding/base64`: decoding what `Encode` wrote -/

theorem sextet_lt (x : Nat) : x &&& 0x3F < 64 := by
  rw [and_63]; omega

/-- Three bytes, cut into four six-bit values and put together again. -/
theorem quantumBytes_group (a b c : Nat) (ha : a < 256) (hb : b < 256) (hc : c < 256) :
    quantumBytes [((a <<< 16 ||| b <<< 8 ||| c) >>> 18) &&& 0x3F,
        ((a <<< 16 ||| b <<< 8 ||| c) >>> 12) &&& 0x3F,
        ((a <<< 16 ||| b <<< 8 ||| c) >>> 6) &&& 0x3F,
        (a <<< 16 ||| b <<< 8 ||| c) &&& 0x3F] 4 = [a, b, c] := by
  rw [quantumBytes_four _ _ _ _ (sextet_lt _) (sextet_lt _) (sextet_lt _)]
  simp only [or3 a b c hb hc, and_63, Nat.shiftRight_eq_div_pow, List.cons.injEq, and_true]
  refine ⟨?_, ?_, ?_⟩ <;> omega

theorem or2 (a b : Nat) (hb : b < 256) : a <<< 16 ||| b <<< 8 = a * 65536 + b * 256 := by
  have := or3 a b 0 hb (by omega)
  simpa using this

theorem quantumBytes_pair (a b : Nat) (ha : a < 256) (hb : b < 256) :
    quantumBytes [((a <<< 16 ||| b <<< 8) >>> 18) &&& 0x3F,
        ((a <<< 16 ||| b <<< 8) >>> 12) &&& 0x3F,
        ((a <<< 16 ||| b <<< 8) >>> 6) &&& 0x3F] 3 = [a, b] := by
  have e := or4 (((a <<< 16 ||| b <<< 8) >>> 18) &&& 0x3F)
    (((a <<< 16 ||| b <<< 8) >>> 12) &&& 0x3F) (((a <<< 16 ||| b <<< 8) >>> 6) &&& 0x3F) 0
    (sextet_lt _) (sextet_lt _) (by omega)
  unfold quantumBytes
  simp only [List.getD_cons_zero, List.getD_cons_succ, List.getD_nil]
  rw [e]
  simp only [or2 a b hb, and_63, Nat.shiftRight_eq_div_pow, Nat.reduceSub, List.take,
    List.cons.injEq, and_true]
  refine ⟨?_, ?_⟩ <;> omega

theorem quantumBytes_single (a : Nat) (ha : a < 256) :
    quantumBytes [((a <<< 16) >>> 18) &&& 0x3F, ((a <<< 16) >>> 12) &&& 0x3F] 2 = [a] := by
  have e := or4 (((a <<< 16) >>> 18) &&& 0x3F) (((a <<< 16) >>> 12) &&& 0x3F) 0 0
    (sextet_lt _) (by omega) (by omega)
  unfold quantumBytes
  simp only [List.getD_cons_zero, List.getD_cons_succ, List.getD_nil]
  rw [e]
  simp only [Nat.shiftLeft_eq, and_63, Nat.shiftRight_eq_div_pow, Nat.reduceSub, List.take,
    List.cons.injEq, and_true]
  omega

theorem decodeMap_encode_ne (i : Nat) (h : i < 64) : decodeMap (encode i) ≠ 0xFF := by
  rw [decodeMap_encode i h]; omega

theorem decodeMap_sextet (x : Nat) : decodeMap (encode (x &&& 0x3F)) = x &&& 0x3F :=
  decodeMap_encode _ (sextet_lt x)

theorem decodeMap_sextet_ne (x : Nat) : decodeMap (encode (x &&& 0x3F)) ≠ 0xFF :=
  decodeMap_encode_ne _ (sextet_lt x)

/-- A call of `decodeQuantum` on two symbols and two padding bytes that end the
input. -/
theorem decodeQuantum_pad2 (total c1 c2 si : Nat)
    (h1 : decodeMap c1 ≠ 0xFF) (h2 : decodeMap c2 ≠ 0xFF) :
    decodeQuantum total [c1, c2, padChar, padChar] si =
      ⟨[], si + 4, quantumBytes [decodeMap c1, decodeMap c2] 2, none⟩ := by
  have hp : decodeMap padChar = 0xFF := decodeMap_pad
  have hp1 : ¬ (padChar = 10 ∨ padChar = 13) := by decide
  simp [decodeQuantum, decodeQuantumLoop, h1, h2, hp, hp1, skipNewlines]

/-- A call of `decodeQuantum` on three symbols and one padding byte that end
the input. -/
theorem decodeQuantum_pad1 (total c1 c2 c3 si : Nat)
    (h1 : decodeMap c1 ≠ 0xFF) (h2 : decodeMap c2 ≠ 0xFF) (h3 : decodeMap c3 ≠ 0xFF) :
    decodeQuantum total [c1, c2, c3, padChar] si =
      ⟨[], si + 4, quantumBytes [decodeMap c1, decodeMap c2, decodeMap c3] 3, none⟩ := by
  have hp : decodeMap padChar = 0xFF := decodeMap_pad
  have hp1 : ¬ (padChar = 10 ∨ padChar = 13) := by decide
  simp [decodeQuantum, decodeQuantumLoop, h1, h2, h3, hp, hp1, skipNewlines]

/-- A call of `decodeQuantum` that starts on a byte outside the alphabet, other
than a newline, fails at that byte and writes nothing. -/
theorem decodeQuantum_invalid (total x : Nat) (t : List Nat) (si : Nat)
    (hx : decodeMap x = 0xFF) (h10 : x ≠ 10) (h13 : x ≠ 13) :
    (decodeQuantum total (x :: t) si).out = [] ∧
      (decodeQuantum total (x :: t) si).err = some si := by
  by_cases hp : x = padChar
  · have hp1 : ¬ (padChar = 10 ∨ padChar = 13) := by decide
    simp [decodeQuantum, decodeQuantumLoop, hp, decodeMap_pad, hp1]
  · simp [decodeQuantum, decodeQuantumLoop, hx, h10, h13, hp]

/-- The last loop of `Decode` undoes `Encode`. -/
theorem decodeTail_Encode (total : Nat) (n : Nat) :
    ∀ (bs : List Nat), bs.length ≤ n → (∀ x ∈ bs, x < 256) →
      ∀ (f si : Nat) (out : List Nat), (Encode bs).length ≤ f →
        decodeTail f total (Encode bs) si out = (out ++ bs, none) := by
  induction n using Nat.strong_induction_on with
  | _ n ih =>
    intro bs hn hb f si out hf
    rcases bs with _ | ⟨a, _ | ⟨b, _ | ⟨c, rest⟩⟩⟩
    · cases f <;> simp [Encode, decodeTail]
    · have ha : a < 256 := hb a (by simp)
      simp only [Encode, List.length_cons, List.length_nil] at hf ⊢
      obtain ⟨f, rfl⟩ : ∃ g, f = g + 1 := ⟨f - 1, by omega⟩
      simp only [decodeTail, if_pos (List.cons_ne_nil _ _),
        decodeQuantum_pad2 total _ _ si (decodeMap_sextet_ne _) (decodeMap_sextet_ne _),
        decodeMap_sextet, quantumBytes_single a ha]
      cases f <;> simp [decodeTail]
    · have ha : a < 256 := hb a (by simp)
      have hb2 : b < 256 := hb b (by simp)
      simp only [Encode, List.length_cons, List.length_nil] at hf ⊢
      obtain ⟨f, rfl⟩ : ∃ g, f = g + 1 := ⟨f - 1, by omega⟩
      simp only [decodeTail, if_pos (List.cons_ne_nil _ _),
        decodeQuantum_pad1 total _ _ _ si (decodeMap_sextet_ne _) (decodeMap_sextet_ne _)
          (decodeMap_sextet_ne _),
        decodeMap_sextet, quantumBytes_pair a b ha hb2]
      cases f <;> simp [decodeTail]
    · have ha : a < 256 := hb a (by simp)
      have hb2 : b < 256 := hb b (by simp)
      have hc : c < 256 := hb c (by simp)
      simp only [Encode, List.length_cons] at hf ⊢
      obtain ⟨f, rfl⟩ : ∃ g, f = g + 1 := ⟨f - 1, by omega⟩
      rw [decodeTail_four total f _ _ _ _ _ si out (decodeMap_sextet_ne _)
        (decodeMap_sextet_ne _) (decodeMap_sextet_ne _) (decodeMap_sextet_ne _)]
      simp only [decodeMap_sextet, quantumBytes_group a b c ha hb2 hc]
      simp only [List.length_cons] at hn
      rw [ih (n - 3) (by omega) rest (by omega) (fun x hx => hb x (by simp [hx])) f (si + 4) _
        (by omega)]
      simp

end base64

namespace base64

/-- Whole groups of three bytes. -/
theorem decodeTail_Encode_invalid (total : Nat) (n : Nat) :
    ∀ (bs : List Nat), bs.length ≤ n → bs.length % 3 = 0 → (∀ x ∈ bs, x < 256) →
      ∀ (x : Nat) (t : List Nat), decodeMap x = 0xFF → x ≠ 10 → x ≠ 13 →
      ∀ (f si : Nat) (out : List Nat), (Encode bs ++ x :: t).length ≤ f →
        decodeTail f total (Encode bs ++ x :: t) si out =
          (out ++ bs, some (si + (Encode bs).length)) := by
  induction n using Nat.strong_induction_on with
  | _ n ih =>
    intro bs hn h3 hb x t hx h10 h13 f si out hf
    rcases bs with _ | ⟨a, _ | ⟨b, _ | ⟨c, rest⟩⟩⟩
    · simp only [Encode, List.nil_append, List.length_cons] at hf ⊢
      obtain ⟨f, rfl⟩ : ∃ g, f = g + 1 := ⟨f - 1, by omega⟩
      obtain ⟨ho, he⟩ := decodeQuantum_invalid total x t si hx h10 h13
      simp only [decodeTail, if_pos (List.cons_ne_nil _ _), he, ho]
      simp
    · simp at h3
    · simp at h3
    · have ha : a < 256 := hb a (by simp)
      have hb2 : b < 256 := hb b (by simp)
      have hc : c < 256 := hb c (by simp)
      simp only [Encode, List.length_cons, List.cons_append] at hf ⊢
      obtain ⟨f, rfl⟩ : ∃ g, f = g + 1 := ⟨f - 1, by omega⟩
      rw [decodeTail_four total f _ _ _ _ _ si out (decodeMap_sextet_ne _)
        (decodeMap_sextet_ne _) (decodeMap_sextet_ne _) (decodeMap_sextet_ne _)]
      simp only [decodeMap_sextet, quantumBytes_group a b c ha hb2 hc]
      simp only [List.length_cons] at hn h3
      rw [ih (n - 3) (by omega) rest (by omega) (by omega) (fun y hy => hb y (by simp [hy]))
        x t hx h10 h13 f (si + 4) _ (by simp only [List.length_append, List.length_cons] at hf ⊢; omega)]
      simp only [List.append_assoc, List.cons_append, List.nil_append, Prod.mk.injEq,
        Option.some.injEq, true_and]
      omega

end base64

theorem utf8_ascii : ∀ x, x < 128 →
    (String.utf8EncodeChar (Char.ofNat x)).map UInt8.toNat = [x] := by decide

theorem bytesOf_stringOf (l : List Nat) (h : ∀ x ∈ l, x < 128) : bytesOf (stringOf l) = l := by
  induction l with
  | nil => rfl
  | cons a l ih =>
    have ha := utf8_ascii a (h a (by simp))
    have := ih (fun x hx => h x (by simp [hx]))
    simp only [bytesOf, stringOf, String.toList, List.map_cons, List.flatMap_cons] at this ⊢
    rw [ha, this]
    rfl

theorem bytesOf_append (s t : String) : bytesOf (s ++ t) = bytesOf s ++ bytesOf t := by
  simp [bytesOf, String.data_append, List.flatMap_append]

namespace base64

theorem encode_ascii : ∀ i, i < 64 → encode i < 128 := by decide

theorem Encode_ascii (bs : List Nat) : ∀ x ∈ Encode bs, x < 128 := by
  induction bs using Encode.induct with
  | case1 a b c rest ih =>
    intro x hx
    simp only [Encode, List.mem_cons] at hx
    rcases hx with h | h | h | h | h
    · rw [h]; exact encode_ascii _ (sextet_lt _)
    · rw [h]; exact encode_ascii _ (sextet_lt _)
    · rw [h]; exact encode_ascii _ (sextet_lt _)
    · rw [h]; exact encode_ascii _ (sextet_lt _)
    · exact ih x h
  | case2 a b =>
    intro x hx
    simp only [Encode, List.mem_cons, List.mem_singleton, List.not_mem_nil, or_false] at hx
    rcases hx with h | h | h | h
    · rw [h]; exact encode_ascii _ (sextet_lt _)
    · rw [h]; exact encode_ascii _ (sextet_lt _)
    · rw [h]; exact encode_ascii _ (sextet_lt _)
    · rw [h]; decide
  | case3 a =>
    intro x hx
    simp only [Encode, List.mem_cons, List.mem_singleton, List.not_mem_nil, or_false] at hx
    rcases hx with h | h | h | h
    · rw [h]; exact encode_ascii _ (sextet_lt _)
    · rw [h]; exact encode_ascii _ (sextet_lt _)
    · rw [h]; decide
    · rw [h]; decide
  | case4 => intro x hx; simp [Encode] at hx

theorem bytesOf_EncodeToString (bs : List Nat) : bytesOf (EncodeToString bs) = Encode bs :=
  bytesOf_stringOf _ (Encode_ascii bs)

/-- Decoding undoes encoding: `DecodeString (EncodeToString bs)` is `bs`, with
no error. -/
theorem DecodeString_EncodeToString (bs : List Nat) (hb : ∀ x ∈ bs, x < 256) :
    DecodeString (EncodeToString bs) = (bs, none) := by
  unfold DecodeString
  rw [Decode_eq_decodeTail, bytesOf_EncodeToString,
    decodeTail_Encode _ bs.length bs (Nat.le_refl _) hb _ _ _ (Nat.le_refl _)]
  simp

/-- Decoding the encoding of whole groups followed by text that starts with a
byte outside the alphabet, other than a newline: the groups are returned, with
an error at that byte. -/
theorem DecodeString_invalid_tail (bs : List Nat) (hb : ∀ x ∈ bs, x < 256)
    (h3 : bs.length % 3 = 0) (t : String) (x : Nat) (r : List Nat)
    (ht : bytesOf t = x :: r) (hx : decodeMap x = 0xFF) (h10 : x ≠ 10) (h13 : x ≠ 13) :
    DecodeString (EncodeToString bs ++ t) = (bs, some (Encode bs).length) := by
  unfold DecodeString
  rw [Decode_eq_decodeTail, bytesOf_append, bytesOf_EncodeToString, ht,
    decodeTail_Encode_invalid _ bs.length bs (Nat.le_refl _) h3 hb x r hx h10 h13 _ _ _
      (Nat.le_refl _)]
  simp

theorem EncodeToString_ne_empty (bs : List Nat) (h : bs ≠ []) : EncodeToString bs ≠ "" := by
  intro he
  have h1 := congrArg bytesOf he
  rw [bytesOf_EncodeToString] at h1
  rcases bs with _ | ⟨a, _ | ⟨b, _ | ⟨c, rest⟩⟩⟩
  · exact h rfl
  · simp [Encode, bytesOf] at h1
  · simp [Encode, bytesOf] at h1
  · simp [Encode, bytesOf] at h1

end base64

theorem resolveFields_cookie (PORT : Option String) (d : configType) :
    (resolveFields PORT d).CookieHash = d.CookieHash ∧
      (resolveFields PORT d).CookieEncryption = d.CookieEncryption := by
  simp only [resolveFields]
  split_ifs <;> exact ⟨rfl, rfl⟩

/-! ## The cookie secrets -/

/-- C7: for every two 32-byte values `hash` and `encryption` of the random
source, `GenerateCookieSecrets` stores their standard base64 encodings,
decoding each stored string succeeds and gives back the 32 bytes, and these are
the keys that resolution hands to the cookie codec. -/
theorem GenerateCookieSecrets_roundtrip (conf : configType) (hash encryption : List Nat)
    (_h1 : hash.length = 32) (h2 : encryption.length = 32)
    (hb1 : ∀ x ∈ hash, x < 256) (hb2 : ∀ x ∈ encryption, x < 256) :
    (GenerateCookieSecrets conf hash encryption).CookieHash = base64.EncodeToString hash ∧
    (GenerateCookieSecrets conf hash encryption).CookieEncryption =
      base64.EncodeToString encryption ∧
    base64.DecodeString (GenerateCookieSecrets conf hash encryption).CookieHash =
      (hash, none) ∧
    base64.DecodeString (GenerateCookieSecrets conf hash encryption).CookieEncryption =
      (encryption, none) ∧
    cookieKeys (GenerateCookieSecrets conf hash encryption) = ⟨hash, some encryption⟩ := by
  have e1 := base64.DecodeString_EncodeToString hash hb1
  have e2 := base64.DecodeString_EncodeToString encryption hb2
  have hne : encryption ≠ [] := by
    intro h; rw [h] at h2; simp at h2
  have hpos : len (base64.EncodeToString encryption) > 0 :=
    (len_pos_iff _).mpr (base64.EncodeToString_ne_empty encryption hne)
  refine ⟨rfl, rfl, e1, e2, ?_⟩
  simp only [cookieKeys, GenerateCookieSecrets, e1, e2, if_pos hpos]

/-- Witness of C7: the bytes 0 to 31 and thirty-two bytes 255. -/
theorem GenerateCookieSecrets_roundtrip_witness :
    base64.DecodeString
        (GenerateCookieSecrets NewConfig (List.range 32) (List.replicate 32 255)).CookieHash =
      (List.range 32, none) ∧
    cookieKeys (GenerateCookieSecrets NewConfig (List.range 32) (List.replicate 32 255)) =
      ⟨List.range 32, some (List.replicate 32 255)⟩ :=
  ⟨(GenerateCookieSecrets_roundtrip NewConfig (List.range 32) (List.replicate 32 255)
      (by decide) (by decide) (by decide) (by decide)).2.2.1,
   (GenerateCookieSecrets_roundtrip NewConfig (List.range 32) (List.replicate 32 255)
      (by decide) (by decide) (by decide) (by decide)).2.2.2.2⟩

/-- Counterexample to C8: the cookie hash `QUJD!!!!` is not valid base64, the
decoder reports an error at byte 4, `init` returns, and the hash key handed to
the cookie codec is `ABC`, not the empty byte sequence. -/
theorem malformed_hash_key_not_empty :
    (base64.DecodeString "QUJD!!!!").2 = some 4 ∧
    Loads (fileEnv none (some { NewConfig with CookieHash := "QUJD!!!!" })) fileFlags
      { NewConfig with CookieHash := "QUJD!!!!" } ∧
    (init (fileEnv none (some { NewConfig with CookieHash := "QUJD!!!!" })) fileFlags).outcome
      = .returned ∧
    (init (fileEnv none (some { NewConfig with CookieHash := "QUJD!!!!" }))
      fileFlags).globals.Cookie = some ⟨[65, 66, 67], none⟩ := by
  decide

/-- C8, amended: for every document that loads, `init` builds the cookie codec
whatever the two strings hold, and returns whenever the URL parser accepts the
web host.  When `cookie_hash` or `cookie_encryption` is the encoding of whole
three-byte groups `bs` followed by text that starts with a byte outside the
alphabet, other than CR and LF, the decoder reports an error and the key handed
to the codec is `bs`, the bytes decoded before the error. -/
theorem init_cookie_keys_before_error {URL : Type} (env : Env URL) (flags : Flags)
    (d : configType) (hload : Loads env flags d)
    (bs : List Nat) (hb : ∀ x ∈ bs, x < 256) (h3 : bs.length % 3 = 0)
    (t : String) (x : Nat) (r : List Nat) (ht : bytesOf t = x :: r)
    (hx : base64.decodeMap x = 0xFF) (h10 : x ≠ 10) (h13 : x ≠ 13) :
    (base64.DecodeString (base64.EncodeToString bs ++ t)).2 ≠ none ∧
    (∃ k, (init env flags).globals.Cookie = some k ∧
      (d.CookieHash = base64.EncodeToString bs ++ t → k.hashKey = bs) ∧
      (d.CookieEncryption = base64.EncodeToString bs ++ t → k.blockKey = some bs)) ∧
    (∀ u, env.urlParse d.WebHost = some u → (init env flags).outcome = .returned) := by
  have e := base64.DecodeString_invalid_tail bs hb h3 t x r ht hx h10 h13
  have hc := resolveFields_cookie env.PORT d
  rw [init_of_loads env flags d hload, resolve_cookie]
  refine ⟨by rw [e]; simp, ⟨_, rfl, ?_, ?_⟩, fun u hu => resolve_returns env _ d u hu⟩
  · intro hh
    simp only [cookieKeys, hc.1, hh, e]
  · intro hh
    have hne : base64.EncodeToString bs ++ t ≠ "" := by
      intro h0
      have h1 := congrArg bytesOf h0
      rw [bytesOf_append, ht] at h1
      simp [bytesOf] at h1
    have hpos : len (base64.EncodeToString bs ++ t) > 0 := (len_pos_iff _).mpr hne
    simp only [cookieKeys, hc.2, hh, e, if_pos hpos]

/-- Witness of C8, amended: the cookie hash `QUJD!!!!`, the encoding of `ABC`
followed by `!!!!`. -/
theorem init_cookie_keys_before_error_witness :
    Loads (fileEnv none (some { NewConfig with CookieHash := "QUJD!!!!" })) fileFlags
      { NewConfig with CookieHash := "QUJD!!!!" } ∧
    ∃ k, (init (fileEnv none (some { NewConfig with CookieHash := "QUJD!!!!" }))
        fileFlags).globals.Cookie = some k ∧
      (({ NewConfig with CookieHash := "QUJD!!!!" } : configType).CookieHash =
        base64.EncodeToString [65, 66, 67] ++ "!!!!" → k.hashKey = [65, 66, 67]) ∧
      (({ NewConfig with CookieHash := "QUJD!!!!" } : configType).CookieEncryption =
        base64.EncodeToString [65, 66, 67] ++ "!!!!" → k.blockKey = some [65, 66, 67]) :=
  ⟨by decide,
   (init_cookie_keys_before_error (fileEnv none (some { NewConfig with CookieHash := "QUJD!!!!" }))
      fileFlags { NewConfig with CookieHash := "QUJD!!!!" } (by decide) [65, 66, 67]
      (by decide) (by decide) "!!!!" 33 [33, 33, 33] (by decide) (by decide) (by decide)
      (by decide)).2.1⟩

/-! ## The example document -/

/-- C9: whenever `-printConfig` is set and the random source gives two 32-byte
values, whatever the other flags and the environment, `init` does one thing to
the outside, printing a document whose port is `:3000`, whose work directory is
`/tmp/semaphore` and whose two cookie strings are not empty, and then exits
with status 0; no file is opened, no asset fetched and `Config`, `Cookie` and
`WebHostURL` stay nil. -/
theorem init_printConfig {URL : Type} (env : Env URL) (flags : Flags)
    (hp : flags.printConfig = true)
    (h1 : env.randomKeys.1.length = 32) (h2 : env.randomKeys.2.length = 32) :
    ∃ cfg, init env flags = ⟨[.printDoc cfg], .exit 0, ⟨none, none, none⟩⟩ ∧
      cfg.Port = ":3000" ∧ cfg.TmpPath = "/tmp/semaphore" ∧
      cfg.CookieHash ≠ "" ∧ cfg.CookieEncryption ≠ "" := by
  have n1 : env.randomKeys.1 ≠ [] := by intro h; rw [h] at h1; simp at h1
  have n2 : env.randomKeys.2 ≠ [] := by intro h; rw [h] at h2; simp at h2
  refine ⟨GenerateCookieSecrets
      { NewConfig with
        MySQL := { Hostname := "127.0.0.1:3306", Username := "root", Password := "",
                   DbName := "semaphore" }
        Port := ":3000"
        TmpPath := "/tmp/semaphore" } env.randomKeys.1 env.randomKeys.2,
    ?_, rfl, rfl, base64.EncodeToString_ne_empty _ n1, base64.EncodeToString_ne_empty _ n2⟩
  simp only [init, hp, if_true]

/-- Witness of C9: `-printConfig` together with `-hash` and `-config`. -/
theorem init_printConfig_witness :
    ∃ cfg, init (fileEnv (some "8080") none)
        { setup := true, migrate := false, upgrade := false, config := "conf.json",
          hash := "secret", printConfig := true } =
        ⟨[.printDoc cfg], .exit 0, ⟨none, none, none⟩⟩ ∧
      cfg.Port = ":3000" ∧ cfg.TmpPath = "/tmp/semaphore" ∧
      cfg.CookieHash ≠ "" ∧ cfg.CookieEncryption ≠ "" :=
  init_printConfig (fileEnv (some "8080") none)
    { setup := true, migrate := false, upgrade := false, config := "conf.json",
      hash := "secret", printConfig := true } rfl (by decide) (by decide)

/-! ## The wizard on lines without white space, whichever sections are enabled -/

theorem lineAt_eq_headD (lines : List String) (k : Nat) :
    lineAt lines k = (lines.drop k).headD "" := by
  induction lines generalizing k with
  | nil => simp [lineAt]
  | cons l ls ih =>
    cases k with
    | zero => simp [lineAt]
    | succ k => simp [lineAt]

theorem spaceless_drop (lines : List String) (k : Nat) (hs : ∀ l ∈ lines, Spaceless l) :
    ∀ l ∈ lines.drop k, Spaceless l := fun l h => hs l (List.mem_of_mem_drop h)

theorem Scanln_lines (v : String) (lines : List String) (k : Nat)
    (hs : ∀ l ∈ lines, Spaceless l) :
    (Scanln v (typed (lines.drop k) [])).v = (if lineAt lines k = "" then v else lineAt lines k) ∧
    (Scanln v (typed (lines.drop k) [])).stdin = typed (lines.drop (k + 1)) [] := by
  have hd : lines.drop (k + 1) = (lines.drop k).drop 1 := by
    rw [List.drop_drop, Nat.add_comm]
  rw [lineAt_eq_headD, hd]
  have hs2 := spaceless_drop lines k hs
  generalize lines.drop k = ls at hs2
  cases ls with
  | nil => simp [Scanln, SkipSpace, typed]
  | cons l ls => rw [Scanln_typed v l ls [] (hs2 l (by simp))]; exact ⟨rfl, rfl⟩

theorem Scanln_lines_v (v : String) (lines : List String) (k : Nat)
    (hs : ∀ l ∈ lines, Spaceless l) :
    (Scanln v (typed (lines.drop k) [])).v = if lineAt lines k = "" then v else lineAt lines k :=
  (Scanln_lines v lines k hs).1

theorem Scanln_lines_stdin (v : String) (lines : List String) (k : Nat)
    (hs : ∀ l ∈ lines, Spaceless l) :
    (Scanln v (typed (lines.drop k) [])).stdin = typed (lines.drop (k + 1)) [] :=
  (Scanln_lines v lines k hs).2

theorem scanDatabase_lines (conf : configType) (t : Console) (lines : List String) (k : Nat)
    (hs : ∀ l ∈ lines, Spaceless l) (hin : t.stdin = typed (lines.drop k) [])
    (hconf : conf.MySQL = ⟨"", "", "", ""⟩) :
    scanDatabase conf t =
      ({ conf with
          MySQL := ⟨orDefault (lineAt lines k) "127.0.0.1:3306",
                    orDefault (lineAt lines (k + 1)) "root", lineAt lines (k + 2),
                    orDefault (lineAt lines (k + 3)) "semaphore"⟩ },
        ⟨typed (lines.drop (k + 4)) [], t.stdout ++ [" > DB Hostname (default 127.0.0.1:3306): ",
          " > DB User (default root): ", " > DB Password: ",
          " > DB Name (default semaphore): "]⟩) := by
  simp only [scanDatabase, Print, Console.scanned, hin, hconf,
    Scanln_lines_v _ _ _ hs, Scanln_lines_stdin _ _ _ hs, Nat.add_assoc, Nat.reduceAdd]
  by_cases h1 : lineAt lines k = "" <;> by_cases h2 : lineAt lines (k + 1) = "" <;>
    by_cases h3 : lineAt lines (k + 2) = "" <;>
    by_cases h4 : lineAt lines (k + 3) = "" <;>
    simp [h1, h2, h3, h4, orDefault, len_eq_zero_iff]

theorem scanPaths_lines (conf : configType) (t : Console) (lines : List String) (k : Nat)
    (hs : ∀ l ∈ lines, Spaceless l) (hin : t.stdin = typed (lines.drop k) [])
    (h1 : conf.TmpPath = "") (h2 : conf.WebHost = "") :
    scanPaths conf t =
      ({ conf with
          TmpPath := Clean (orDefault (lineAt lines k) "/tmp/semaphore")
          WebHost := lineAt lines (k + 1) },
        ⟨typed (lines.drop (k + 2)) [], t.stdout ++ [" > Playbook path: ",
          " > Web root URL (optional, example http://localhost:8010/): "]⟩) := by
  simp only [scanPaths, Print, Console.scanned, hin, h1, h2,
    Scanln_lines_v _ _ _ hs, Scanln_lines_stdin _ _ _ hs, Nat.add_assoc, Nat.reduceAdd]
  by_cases h3 : lineAt lines k = "" <;> by_cases h4 : lineAt lines (k + 1) = "" <;>
    simp [h3, h4, orDefault, len_eq_zero_iff]

theorem yes_iff (l : String) :
    ((if l = "" then "" else l) = "yes" ∨ (if l = "" then "" else l) = "y") ↔
      (l = "y" ∨ l = "yes") := by
  by_cases h : l = ""
  · subst h; decide
  · simp only [if_neg h]; exact Or.comm

theorem scanEmail_lines (conf : configType) (t : Console) (lines : List String) (k : Nat)
    (hs : ∀ l ∈ lines, Spaceless l) (hin : t.stdin = typed (lines.drop k) [])
    (h1 : conf.EmailHost = "") (h2 : conf.EmailPort = "") (h3 : conf.EmailSender = "") :
    (scanEmail conf t).1 = (wizardEmail conf lines k).1 ∧
    (scanEmail conf t).2.stdin = typed (lines.drop (wizardEmail conf lines k).2) [] := by
  simp only [scanEmail, wizardEmail, Print, Console.scanned, hin, h1, h2, h3,
    Scanln_lines_v _ _ _ hs, Scanln_lines_stdin _ _ _ hs, Nat.add_assoc, Nat.reduceAdd, yes_iff]
  by_cases he : lineAt lines k = "y" ∨ lineAt lines k = "yes"
  · simp only [if_pos he]
    by_cases h4 : lineAt lines (k + 1) = "" <;> by_cases h5 : lineAt lines (k + 2) = "" <;>
      by_cases h6 : lineAt lines (k + 3) = "" <;>
      simp [h4, h5, h6, orDefault, len_eq_zero_iff]
  · simp only [if_neg he, and_self]

theorem scanTelegram_lines (conf : configType) (t : Console) (lines : List String) (k : Nat)
    (hs : ∀ l ∈ lines, Spaceless l) (hin : t.stdin = typed (lines.drop k) [])
    (h1 : conf.TelegramToken = "") (h2 : conf.TelegramChat = "") :
    (scanTelegram conf t).1 = (wizardTelegram conf lines k).1 ∧
    (scanTelegram conf t).2.stdin = typed (lines.drop (wizardTelegram conf lines k).2) [] := by
  simp only [scanTelegram, wizardTelegram, Print, Console.scanned, hin, h1, h2,
    Scanln_lines_v _ _ _ hs, Scanln_lines_stdin _ _ _ hs, Nat.add_assoc, Nat.reduceAdd, yes_iff]
  by_cases he : lineAt lines k = "y" ∨ lineAt lines k = "yes"
  · simp only [if_pos he]
    by_cases h4 : lineAt lines (k + 1) = "" <;> by_cases h5 : lineAt lines (k + 2) = "" <;>
      simp [h4, h5, len_eq_zero_iff]
  · simp only [if_neg he, and_self]

theorem scanLdapServer_lines (conf : configType) (t : Console) (lines : List String) (k : Nat)
    (hs : ∀ l ∈ lines, Spaceless l) (hin : t.stdin = typed (lines.drop k) [])
    (h1 : conf.LdapServer = "") :
    scanLdapServer conf t =
      ({ conf with
          LdapServer := orDefault (lineAt lines k) "localhost:389"
          LdapNeedTLS := decide (lineAt lines (k + 1) = "y" ∨ lineAt lines (k + 1) = "yes") },
        ⟨typed (lines.drop (k + 2)) [], t.stdout ++
          [" > LDAP server host (default localhost:389): ",
           " > Enable LDAP TLS connection (y/n, default n): "]⟩) := by
  simp only [scanLdapServer, Print, Console.scanned, hin, h1,
    Scanln_lines_v _ _ _ hs, Scanln_lines_stdin _ _ _ hs, Nat.add_assoc, Nat.reduceAdd, yes_iff]
  by_cases h3 : lineAt lines k = "" <;>
    by_cases h5 : (lineAt lines (k + 1) = "y" ∨ lineAt lines (k + 1) = "yes") <;>
    simp [h3, h5, orDefault, len_eq_zero_iff]

theorem scanLdapBind_lines (conf : configType) (t : Console) (lines : List String) (k : Nat)
    (hs : ∀ l ∈ lines, Spaceless l) (hin : t.stdin = typed (lines.drop k) [])
    (h1 : conf.LdapBindDN = "") (h2 : conf.LdapBindPassword = "") :
    scanLdapBind conf t =
      ({ conf with
          LdapBindDN := orDefault (lineAt lines k) "cn=user,ou=users,dc=example"
          LdapBindPassword := orDefault (lineAt lines (k + 1)) "pa55w0rd" },
        ⟨typed (lines.drop (k + 2)) [], t.stdout ++
          [" > LDAP DN for bind (default cn=user,ou=users,dc=example): ",
           " > Password for LDAP bind user (default pa55w0rd): "]⟩) := by
  simp only [scanLdapBind, Print, Console.scanned, hin, h1, h2,
    Scanln_lines_v _ _ _ hs, Scanln_lines_stdin _ _ _ hs, Nat.add_assoc, Nat.reduceAdd]
  by_cases h3 : lineAt lines k = "" <;> by_cases h4 : lineAt lines (k + 1) = "" <;>
    simp [h3, h4, orDefault, len_eq_zero_iff]

theorem scanLdapSearch_lines (conf : configType) (t : Console) (lines : List String) (k : Nat)
    (hs : ∀ l ∈ lines, Spaceless l) (hin : t.stdin = typed (lines.drop k) [])
    (h1 : conf.LdapSearchDN = "") (h2 : conf.LdapSearchFilter = "") :
    scanLdapSearch conf t =
      ({ conf with
          LdapSearchDN := orDefault (lineAt lines k) "ou=users,dc=example"
          LdapSearchFilter := orDefault (lineAt lines (k + 1)) "(uid=%s)" },
        ⟨typed (lines.drop (k + 2)) [], t.stdout ++
          [" > LDAP DN for user search (default ou=users,dc=example): ",
           " > LDAP search filter (default (uid=%s)): "]⟩) := by
  simp only [scanLdapSearch, Print, Console.scanned, hin, h1, h2,
    Scanln_lines_v _ _ _ hs, Scanln_lines_stdin _ _ _ hs, Nat.add_assoc, Nat.reduceAdd]
  have hq : " > LDAP search filter (default (uid=" ++ "%" ++ "s)): " =
      " > LDAP search filter (default (uid=%s)): " := by decide
  by_cases h3 : lineAt lines k = "" <;> by_cases h4 : lineAt lines (k + 1) = "" <;>
    simp [h3, h4, orDefault, len_eq_zero_iff, hq]

theorem scanLdapMappingsDN_lines (conf : configType) (t : Console) (lines : List String)
    (k : Nat) (hs : ∀ l ∈ lines, Spaceless l) (hin : t.stdin = typed (lines.drop k) [])
    (h1 : conf.LdapMappings.DN = "") (h2 : conf.LdapMappings.Uid = "") :
    scanLdapMappingsDN conf t =
      ({ conf with
          LdapMappings := { conf.LdapMappings with
            DN := orDefault (lineAt lines k) "dn"
            Uid := orDefault (lineAt lines (k + 1)) "uid" } },
        ⟨typed (lines.drop (k + 2)) [], t.stdout ++
          [" > LDAP mapping for DN field (default dn): ",
           " > LDAP mapping for username field (default uid): "]⟩) := by
  simp only [scanLdapMappingsDN, Print, Console.scanned, hin, h1, h2,
    Scanln_lines_v _ _ _ hs, Scanln_lines_stdin _ _ _ hs, Nat.add_assoc, Nat.reduceAdd]
  by_cases h3 : lineAt lines k = "" <;> by_cases h4 : lineAt lines (k + 1) = "" <;>
    simp [h3, h4, orDefault, len_eq_zero_iff]

theorem scanLdapMappingsCN_lines (conf : configType) (t : Console) (lines : List String)
    (k : Nat) (hs : ∀ l ∈ lines, Spaceless l) (hin : t.stdin = typed (lines.drop k) [])
    (h1 : conf.LdapMappings.CN = "") (h2 : conf.LdapMappings.Mail = "") :
    scanLdapMappingsCN conf t =
      ({ conf with
          LdapMappings := { conf.LdapMappings with
            CN := orDefault (lineAt lines k) "cn"
            Mail := orDefault (lineAt lines (k + 1)) "mail" } },
        ⟨typed (lines.drop (k + 2)) [], t.stdout ++
          [" > LDAP mapping for full name field (default cn): ",
           " > LDAP mapping for email field (default mail): "]⟩) := by
  simp only [scanLdapMappingsCN, Print, Console.scanned, hin, h1, h2,
    Scanln_lines_v _ _ _ hs, Scanln_lines_stdin _ _ _ hs, Nat.add_assoc, Nat.reduceAdd]
  by_cases h3 : lineAt lines k = "" <;> by_cases h4 : lineAt lines (k + 1) = "" <;>
    simp [h3, h4, orDefault, len_eq_zero_iff]

theorem scanLdap_lines (conf : configType) (t : Console) (lines : List String) (k : Nat)
    (hs : ∀ l ∈ lines, Spaceless l) (hin : t.stdin = typed (lines.drop k) [])
    (h1 : conf.LdapServer = "") (h2 : conf.LdapBindDN = "") (h3 : conf.LdapBindPassword = "")
    (h4 : conf.LdapSearchDN = "") (h5 : conf.LdapSearchFilter = "")
    (h6 : conf.LdapMappings = ⟨"", "", "", ""⟩) :
    (scanLdap conf t).1 = (wizardLdap conf lines k).1 ∧
    (scanLdap conf t).2.stdin = typed (lines.drop (wizardLdap conf lines k).2) [] := by
  simp only [scanLdap, wizardLdap, Print, Console.scanned, hin,
    Scanln_lines_v _ _ _ hs, Scanln_lines_stdin _ _ _ hs, yes_iff]
  by_cases he : lineAt lines k = "y" ∨ lineAt lines k = "yes"
  · simp only [if_pos he]
    rw [scanLdapServer_lines _ _ lines (k + 1) hs rfl ?_]
    simp only []
    rw [scanLdapBind_lines _ _ lines (k + 1 + 2) hs rfl ?_ ?_]
    simp only []
    rw [scanLdapSearch_lines _ _ lines (k + 1 + 2 + 2) hs rfl ?_ ?_]
    simp only []
    rw [scanLdapMappingsDN_lines _ _ lines (k + 1 + 2 + 2 + 2) hs rfl ?_ ?_]
    simp only []
    rw [scanLdapMappingsCN_lines _ _ lines (k + 1 + 2 + 2 + 2 + 2) hs rfl ?_ ?_]
    simp [h6, Nat.add_assoc]
    all_goals simp [h1, h2, h3, h4, h5, h6]
  · simp only [if_neg he, and_self]

theorem wizardEmail_keeps (conf : configType) (lines : List String) (k : Nat) :
    (wizardEmail conf lines k).1.MySQL = conf.MySQL ∧
    (wizardEmail conf lines k).1.WebHost = conf.WebHost ∧
    (wizardEmail conf lines k).1.TelegramToken = conf.TelegramToken ∧
    (wizardEmail conf lines k).1.TelegramChat = conf.TelegramChat ∧
    ldapPart (wizardEmail conf lines k).1 = ldapPart conf := by
  unfold wizardEmail
  split <;> exact ⟨rfl, rfl, rfl, rfl, rfl⟩

theorem wizardTelegram_keeps (conf : configType) (lines : List String) (k : Nat) :
    (wizardTelegram conf lines k).1.MySQL = conf.MySQL ∧
    (wizardTelegram conf lines k).1.WebHost = conf.WebHost ∧
    ldapPart (wizardTelegram conf lines k).1 = ldapPart conf := by
  unfold wizardTelegram
  split <;> exact ⟨rfl, rfl, rfl⟩

theorem wizardLdap_keeps (conf : configType) (lines : List String) (k : Nat) :
    (wizardLdap conf lines k).1.MySQL = conf.MySQL ∧
    (wizardLdap conf lines k).1.WebHost = conf.WebHost := by
  unfold wizardLdap
  split <;> exact ⟨rfl, rfl⟩

theorem ldapPart_fresh (c : configType) (h : ldapPart c = ldapPart NewConfig) :
    c.LdapServer = "" ∧ c.LdapBindDN = "" ∧ c.LdapBindPassword = "" ∧ c.LdapSearchDN = "" ∧
      c.LdapSearchFilter = "" ∧ c.LdapMappings = ⟨"", "", "", ""⟩ := by
  simp only [ldapPart, NewConfig, Prod.mk.injEq] at h
  obtain ⟨-, h2, h3, h1, -, h4, h5, h6⟩ := h
  exact ⟨h1, h2, h3, h4, h5, h6⟩

/-- The three sections of the wizard, one after the other, on lines without
white space. -/
theorem scanSections_lines (C : configType) (T : Console) (lines : List String) (k : Nat)
    (hs : ∀ l ∈ lines, Spaceless l) (hin : T.stdin = typed (lines.drop k) [])
    (h1 : C.EmailHost = "") (h2 : C.EmailPort = "") (h3 : C.EmailSender = "")
    (h4 : C.TelegramToken = "") (h5 : C.TelegramChat = "")
    (h6 : ldapPart C = ldapPart NewConfig) :
    (scanLdap (scanTelegram (scanEmail C T).1 (scanEmail C T).2).1
        (scanTelegram (scanEmail C T).1 (scanEmail C T).2).2).1 =
      (wizardLdap (wizardTelegram (wizardEmail C lines k).1 lines (wizardEmail C lines k).2).1
        lines (wizardTelegram (wizardEmail C lines k).1 lines (wizardEmail C lines k).2).2).1 ∧
    (scanLdap (scanTelegram (scanEmail C T).1 (scanEmail C T).2).1
        (scanTelegram (scanEmail C T).1 (scanEmail C T).2).2).2.stdin =
      typed (lines.drop
        (wizardLdap (wizardTelegram (wizardEmail C lines k).1 lines (wizardEmail C lines k).2).1
          lines (wizardTelegram (wizardEmail C lines k).1 lines
            (wizardEmail C lines k).2).2).2) [] := by
  obtain ⟨e1, e2⟩ := scanEmail_lines C T lines k hs hin h1 h2 h3
  obtain ⟨-, -, p3, p4, p5⟩ := wizardEmail_keeps C lines k
  obtain ⟨g1, g2⟩ := scanTelegram_lines (scanEmail C T).1 (scanEmail C T).2 lines
    (wizardEmail C lines k).2 hs e2 (by rw [e1, p3]; exact h4) (by rw [e1, p4]; exact h5)
  obtain ⟨-, -, q3⟩ := wizardTelegram_keeps (scanEmail C T).1 lines (wizardEmail C lines k).2
  have hf : ldapPart (scanTelegram (scanEmail C T).1 (scanEmail C T).2).1 = ldapPart NewConfig := by
    rw [g1, q3, e1, p5]; exact h6
  obtain ⟨f1, f2, f3, f4, f5, f6⟩ := ldapPart_fresh _ hf
  obtain ⟨a1, a2⟩ := scanLdap_lines (scanTelegram (scanEmail C T).1 (scanEmail C T).2).1
    (scanTelegram (scanEmail C T).1 (scanEmail C T).2).2 lines
    (wizardTelegram (scanEmail C T).1 lines (wizardEmail C lines k).2).2 hs g2 f1 f2 f3 f4 f5 f6
  rw [a1, a2, g1, e1]
  exact ⟨rfl, rfl⟩

/-- C6, amended: from a fresh document and on input whose lines hold no white
space, the wizard does what section 4.4 says of whole lines, whichever
sections are enabled: the document it leaves is that of `wizardByLines`, in
which every prompt other than the work directory and the yes/no questions
holds its own line as typed when the line is not empty, and the input left
starts after the last line a prompt has read.  In particular the database
fields and the web root hold the lines 0 to 3 and 5 in every run. -/
theorem Scan_refines_wizardByLines (lines : List String) (out : List String)
    (hs : ∀ l ∈ lines, Spaceless l) :
    (Scan NewConfig ⟨typed lines [], out⟩).1 = (wizardByLines lines).1 ∧
    (Scan NewConfig ⟨typed lines [], out⟩).2.stdin =
      typed (lines.drop (wizardByLines lines).2) [] ∧
    (Scan NewConfig ⟨typed lines [], out⟩).1.MySQL =
      ⟨orDefault (lineAt lines 0) "127.0.0.1:3306", orDefault (lineAt lines 1) "root",
        lineAt lines 2, orDefault (lineAt lines 3) "semaphore"⟩ ∧
    (Scan NewConfig ⟨typed lines [], out⟩).1.WebHost = lineAt lines 5 := by
  have key : (Scan NewConfig ⟨typed lines [], out⟩).1 = (wizardByLines lines).1 ∧
      (Scan NewConfig ⟨typed lines [], out⟩).2.stdin =
        typed (lines.drop (wizardByLines lines).2) [] := by
    simp only [Scan, scanBeforeLdap]
    rw [scanDatabase_lines NewConfig _ lines 0 hs (by simp) rfl]
    simp only [Nat.zero_add]
    rw [scanPaths_lines _ _ lines 4 hs rfl rfl rfl]
    simp only [Nat.reduceAdd]
    exact scanSections_lines _ _ lines 6 hs rfl rfl rfl rfl rfl rfl rfl
  refine ⟨key.1, key.2, ?_, ?_⟩
  · rw [key.1]
    simp only [wizardByLines]
    rw [(wizardLdap_keeps _ _ _).1, (wizardTelegram_keeps _ _ _).1, (wizardEmail_keeps _ _ _).1]
  · rw [key.1]
    simp only [wizardByLines]
    rw [(wizardLdap_keeps _ _ _).2, (wizardTelegram_keeps _ _ _).2.1,
      (wizardEmail_keeps _ _ _).2.1]

/-- Witness of C6, amended: eleven lines without white space, the email and
LDAP sections declined and the telegram section enabled. -/
theorem Scan_refines_wizardByLines_witness :
    (Scan NewConfig ⟨typed ["db:3306", "admin", "pw", "sem", "/srv//play/", "http://h/", "n",
        "yes", "tok", "42", "n"] [], []⟩).1 =
      (wizardByLines ["db:3306", "admin", "pw", "sem", "/srv//play/", "http://h/", "n",
        "yes", "tok", "42", "n"]).1 ∧
    (Scan NewConfig ⟨typed ["db:3306", "admin", "pw", "sem", "/srv//play/", "http://h/", "n",
        "yes", "tok", "42", "n"] [], []⟩).1.MySQL = ⟨"db:3306", "admin", "pw", "sem"⟩ :=
  ⟨(Scan_refines_wizardByLines ["db:3306", "admin", "pw", "sem", "/srv//play/", "http://h/",
      "n", "yes", "tok", "42", "n"] [] (by decide)).1,
   (Scan_refines_wizardByLines ["db:3306", "admin", "pw", "sem", "/srv//play/", "http://h/",
      "n", "yes", "tok", "42", "n"] [] (by decide)).2.2.1⟩

end Semaphore
